import Mathlib

/-!
# kytesql.c: the KyteDB virtual-table adapter and its query driver

A shallow embedding of `src/kytesql.c`.

* The process-wide binding `static KDB *g_db` is passed explicitly as an
  `Option KDB` (`none` is the NULL pointer).
* The cursor `KyteCursor` keeps its one field `off`; every cursor operation
  returns its status code together with the cursor it leaves behind.
* The mapped region is a total byte memory `map : Nat → Nat`, addressed
  relative to `g_db->map`; reads past `mapsize` are therefore expressible.
* `kytesql_exec` is run against a record of the host engine's answers
  (`Host`) and yields its status together with the ordered list of calls it
  makes (`Event`).
* `kyteBestIndex` acts on the fields of `sqlite3_index_info`.
* The demonstration of `main` is run on a store of its three records; the
  host engine's evaluation of its query is modelled, not embedded, and the
  engine's answers to the set-up calls are a parameter (`kyteModule` has no
  `xCreate`, so the stock engine refuses the table creation).
-/

namespace KyteSql

/-! ## Result codes of the host engine (`sqlite3.h`) -/

def SQLITE_OK : Int := 0
def SQLITE_NOMEM : Int := 7
def SQLITE_ROW : Int := 100
def SQLITE_DONE : Int := 101

/-! ## The store (`kytedb.h`) -/

/-- Modelled from the spec: the store handle `KDB` of `kytedb.h`, which is not
part of the sources. The adapter uses three things of it: `meta->root` (the
offset of the first record, a `uint64_t`), `mapsize` (the size of the mapped
region) and `map` (the mapped bytes, here a total memory indexed by offset). -/
structure KDB where
  root : Nat
  mapsize : Nat
  map : Nat → Nat

/-- Modelled from the spec: the fixed header `Entry` of `kytedb.h`, which is
not part of the sources: `{ key_length : u32, value_length : u32,
next_offset : u64 }`, followed by the key bytes and then the value bytes. -/
structure Entry where
  klen : Nat
  vlen : Nat
  next : Nat
deriving DecidableEq, Repr

/-- Modelled from the spec: `sizeof(Entry)`, two `u32` followed by one `u64`. -/
def sizeofEntry : Nat := 16

/-- One byte of the mapped region. -/
def byteAt (db : KDB) (a : Nat) : Nat := db.map a % 256

/-- An unsigned integer of `n` bytes stored at address `a`, least significant
byte first (the byte order of the hosts the store is mapped on). -/
def readLE (db : KDB) : Nat → Nat → Nat
  | _, 0 => 0
  | a, n + 1 => byteAt db a + 256 * readLE db (a + 1) n

/-- Modelled from the spec: the header seen through `(Entry *)(g_db->map + off)`,
with the fields in the order the spec lists them. -/
def entryAt (db : KDB) (off : Nat) : Entry :=
  { klen := readLE db off 4
    vlen := readLE db (off + 4) 4
    next := readLE db (off + 8) 8 }

/-- The `n` bytes of the mapped region that start at address `z`. -/
def bytesAt (db : KDB) (z n : Nat) : List Nat :=
  (List.range n).map (fun i => byteAt db (z + i))

/-- A mapped region given by its leading bytes; every other byte is zero. -/
def memOfList (l : List Nat) : Nat → Nat := fun a => l.getD a 0

/-! ## Machine-integer conversions -/

/-- The cast `(int)x` of an unsigned 32-bit value. -/
def toInt32 (x : Nat) : Int :=
  if x % 2 ^ 32 < 2 ^ 31 then ((x % 2 ^ 32 : Nat) : Int)
  else ((x % 2 ^ 32 : Nat) : Int) - 2 ^ 32

/-- The cast `(sqlite3_int64)x` of an unsigned 64-bit value. -/
def toInt64 (x : Nat) : Int :=
  if x % 2 ^ 64 < 2 ^ 63 then ((x % 2 ^ 64 : Nat) : Int)
  else ((x % 2 ^ 64 : Nat) : Int) - 2 ^ 64

/-! ## The cursor and its operations -/

/-- The cursor `KyteCursor`: the current chain offset. -/
structure KyteCursor where
  off : Nat
deriving DecidableEq, Repr

/-- What `kyteColumn` hands to the host engine: `sqlite3_result_null`, or
`sqlite3_result_text` / `sqlite3_result_blob` with the start address and the
`int` length it passes (always with `SQLITE_TRANSIENT`). -/
inductive SqlResult where
  | null : SqlResult
  | text (z : Nat) (n : Int) : SqlResult
  | blob (z : Nat) (n : Int) : SqlResult
deriving DecidableEq, Repr

/-- The bytes the host engine copies for a result whose length is not
negative; `none` for a null result and for a negative length, where the
extent is the host engine's choice. -/
def resultBytes (db : KDB) : SqlResult → Option (List Nat)
  | .null => none
  | .text z n => if 0 ≤ n then some (bytesAt db z n.toNat) else none
  | .blob z n => if 0 ≤ n then some (bytesAt db z n.toNat) else none

/-- Embedding of `kyteOpen`: `callocOk` tells whether `calloc` returned a cursor. -/
def kyteOpen (g : Option KDB) (callocOk : Bool) : Int × Option KyteCursor :=
  if !callocOk then (SQLITE_NOMEM, none)
  else
    (SQLITE_OK, some { off := match g with
                              | some db => db.root
                              | none => 0 })

/-- Embedding of `kyteFilter`: the four filter arguments are ignored. -/
def kyteFilter {V : Type} (g : Option KDB) (_cur : KyteCursor) (_idxNum : Int)
    (_idxStr : Option String) (_argc : Int) (_argv : List V) : Int × KyteCursor :=
  match g with
  | some db => (SQLITE_OK, { off := db.root })
  | none => (SQLITE_OK, { off := 0 })

/-- Embedding of `kyteNext`: with no store bound the offset becomes `0`; under
the guard `cur->off && cur->off < g_db->mapsize` it becomes `e->next` of the
record at the offset; otherwise it becomes `0`. Always `SQLITE_OK`. -/
def kyteNext (g : Option KDB) (cur : KyteCursor) : Int × KyteCursor :=
  match g with
  | none => (SQLITE_OK, { off := 0 })
  | some db =>
    if cur.off ≠ 0 ∧ cur.off < db.mapsize then
      (SQLITE_OK, { off := (entryAt db cur.off).next })
    else
      (SQLITE_OK, { off := 0 })

/-- Embedding of `kyteEof`: the C truth value, `1` or `0`. -/
def kyteEof (g : Option KDB) (cur : KyteCursor) : Int :=
  match g with
  | none => 1
  | some db => if cur.off = 0 ∨ cur.off ≥ db.mapsize then 1 else 0

/-- Embedding of `kyteColumn`: null under the guard
`!g_db || !cur->off || cur->off >= g_db->mapsize`; otherwise `k` is the
address after the header, `v = k + e->klen`, and column 0 is the text at `k`
of length `(int)e->klen`, column 1 the blob at `v` of length `(int)e->vlen`,
any other column null. Always `SQLITE_OK`. -/
def kyteColumn (g : Option KDB) (cur : KyteCursor) (col : Int) : Int × SqlResult :=
  match g with
  | none => (SQLITE_OK, .null)
  | some db =>
    if cur.off = 0 ∨ cur.off ≥ db.mapsize then (SQLITE_OK, .null)
    else
      let e := entryAt db cur.off
      let k := cur.off + sizeofEntry
      let v := k + e.klen
      if col = 0 then (SQLITE_OK, .text k (toInt32 e.klen))
      else if col = 1 then (SQLITE_OK, .blob v (toInt32 e.vlen))
      else (SQLITE_OK, .null)

/-- Embedding of `kyteRowid`: status, the reported rowid, and the cursor (not written). -/
def kyteRowid (cur : KyteCursor) : Int × Int × KyteCursor :=
  (SQLITE_OK, toInt64 cur.off, cur)

/-! ## A scan as the host engine drives it -/

/-- The host engine's loop over a positioned cursor: while `kyteEof` is false,
visit the current record and call `kyteNext`. Each unit of fuel pays for one
`kyteEof` test; the result is the visited offsets and the final cursor. -/
def scanFrom (g : Option KDB) : Nat → KyteCursor → Option (List Nat × KyteCursor)
  | 0, _ => none
  | fuel + 1, cur =>
    if kyteEof g cur ≠ 0 then some ([], cur)
    else
      match scanFrom g fuel (kyteNext g cur).2 with
      | none => none
      | some (l, c) => some (cur.off :: l, c)

/-- A full scan: `kyteFilter` with a null filter, then `scanFrom`. -/
def fullScan (g : Option KDB) (fuel : Nat) (cur : KyteCursor) :
    Option (List Nat × KyteCursor) :=
  scanFrom g fuel (kyteFilter g cur 0 none 0 ([] : List Unit)).2

/-- The list `l` is the chain of the store from offset `o`: every offset of
`l` is a record start (`0 < o < mapsize`), each is the `next` of the one
before, and the last record's `next` is `0`. -/
def isChainFrom (db : KDB) : Nat → List Nat → Bool
  | o, [] => o == 0
  | o, x :: xs =>
    o == x && decide (0 < o) && decide (o < db.mapsize) &&
      isChainFrom db (entryAt db o).next xs

/-- A small store: records at offsets 16 (`"k"`,`"v1"`, next 40) and 40
(`"ab"`,`"c"`, next 0), root 16, 64 bytes mapped. -/
def demoStore : KDB :=
  { root := 16
    mapsize := 64
    map := memOfList
      [0, 0, 0, 0, 0, 0, 0, 0, 0, 0, 0, 0, 0, 0, 0, 0,
       1, 0, 0, 0, 2, 0, 0, 0, 40, 0, 0, 0, 0, 0, 0, 0,
       107, 118, 49, 0, 0, 0, 0, 0,
       2, 0, 0, 0, 1, 0, 0, 0, 0, 0, 0, 0, 0, 0, 0, 0,
       97, 98, 99] }

/-! ## The query driver `kytesql_exec` -/

/-- One row as the callback receives it: `cols`, `values`, `names`; a NULL
entry of either array is `none`. -/
structure Row where
  cols : Nat
  values : List (Option String)
  names : List (Option String)
deriving DecidableEq, Repr

/-- The host engine's answer to one `sqlite3_step`: the result code and, for a
row, `sqlite3_column_count`, `sqlite3_column_text` (NULL is `none`) and
`sqlite3_column_name` (taken to be non-NULL, as `strdup` requires). -/
structure StepOut where
  rc : Int
  cols : Nat
  text : Nat → Option String
  name : Nat → String

/-- The allocator's answers while one row is marshalled: whether the two
`malloc` calls returned an array, and whether `strdup` of column `i`'s value
and name returned a copy. -/
structure RowAlloc where
  valuesOk : Bool
  namesOk : Bool
  dupValue : Nat → Bool
  dupName : Nat → Bool

/-- The answers of the host engine and of the allocator during one call of
`kytesql_exec`: the codes of `sqlite3_initialize`, `sqlite3_open`,
`sqlite3_create_module`, `sqlite3_exec` and `sqlite3_prepare_v2`, whether
`sqlite3_open` and `sqlite3_prepare_v2` left a non-NULL handle and statement,
and the answers at the `i`-th `sqlite3_step` (counted from 0). -/
structure Host where
  initRc : Int
  openRc : Int
  openHandle : Bool
  moduleRc : Int
  createRc : Int
  prepareRc : Int
  prepareStmt : Bool
  step : Nat → StepOut
  alloc : Nat → RowAlloc

/-- The calls `kytesql_exec` makes, in order. -/
inductive Event where
  | init : Event
  | openDb : Event
  | createModule (name : String) : Event
  | execSql (sql : String) : Event
  | prepare (sql : String) : Event
  | step : Event
  | callback (row : Row) : Event
  | finalize : Event
  | close : Event
  | shutdown : Event
deriving DecidableEq, Repr

def TABLE_NAME : String := "kv"
def MODULE_NAME : String := "kytedb"

/-- The text built by `snprintf`: `CREATE VIRTUAL TABLE kv USING kytedb()`. -/
def createSql : String :=
  "CREATE VIRTUAL TABLE " ++ TABLE_NAME ++ " USING " ++ MODULE_NAME ++ "()"

/-- The `for` loop that fills `values` and `names`: a NULL column text stays
NULL, and a failed `strdup` leaves NULL in its slot. -/
def marshal (o : StepOut) (a : RowAlloc) : Row :=
  { cols := o.cols
    values := (List.range o.cols).map (fun i =>
      match o.text i with
      | some t => if a.dupValue i then some t else none
      | none => none)
    names := (List.range o.cols).map (fun i =>
      if a.dupName i then some (o.name i) else none) }

/-- The `while ((rc = sqlite3_step(stmt)) == SQLITE_ROW)` loop, from the
`i`-th step on, with callback state `s`. Each unit of fuel pays for one
`sqlite3_step`. The result is `rc` when the loop is left, the callback state
and the calls made. -/
def stepLoop {σ : Type} (h : Host) (cb : σ → Row → σ × Int) :
    Nat → Nat → σ → Option (Int × σ × List Event)
  | 0, _, _ => none
  | fuel + 1, i, s =>
    let o := h.step i
    if o.rc = SQLITE_ROW then
      if !(h.alloc i).valuesOk || !(h.alloc i).namesOk then
        some (SQLITE_NOMEM, s, [Event.step])
      else
        let row := marshal o (h.alloc i)
        if (cb s row).2 ≠ 0 then
          some (SQLITE_ROW, (cb s row).1, [Event.step, Event.callback row])
        else
          match stepLoop h cb fuel (i + 1) (cb s row).1 with
          | none => none
          | some (rc, s', tr) => some (rc, s', Event.step :: Event.callback row :: tr)
    else
      some (o.rc, s, [Event.step])

/-- What a call of `kytesql_exec` leaves behind: the returned status, the
callback state, the calls made, and the binding `g_db`. -/
structure ExecResult (σ : Type) where
  rc : Int
  arg : σ
  trace : List Event
  gdb : Option KDB

/-- The calls made after the label `end`: `sqlite3_finalize` for a non-NULL
statement, `sqlite3_close` for a non-NULL handle, `sqlite3_shutdown`. -/
def cleanupCalls (stmt handle : Bool) : List Event :=
  (if stmt then [Event.finalize] else []) ++
    (if handle then [Event.close] else []) ++ [Event.shutdown]

/-- The code after the label `end`: finalize a non-NULL statement, close a
non-NULL handle, shut the engine down, and return `rc` with `SQLITE_DONE` and
`SQLITE_ROW` turned into `SQLITE_OK`. -/
def finish {σ : Type} (db : Option KDB) (rc : Int) (arg : σ) (tr : List Event)
    (stmt handle : Bool) : ExecResult σ :=
  { rc := if rc = SQLITE_DONE ∨ rc = SQLITE_ROW then SQLITE_OK else rc
    arg := arg
    trace := tr ++ cleanupCalls stmt handle
    gdb := db }

/-- Embedding of `kytesql_exec`: `none` only when the fuel does not pay for every
`sqlite3_step` of the loop. -/
def kytesql_exec {σ : Type} (h : Host) (fuel : Nat) (db : Option KDB) (sql : String)
    (cb : σ → Row → σ × Int) (arg : σ) : Option (ExecResult σ) :=
  if h.initRc ≠ SQLITE_OK then
    some { rc := h.initRc, arg := arg, trace := [Event.init], gdb := db }
  else if h.openRc ≠ SQLITE_OK then
    some (finish db h.openRc arg [Event.init, Event.openDb] false h.openHandle)
  else if h.moduleRc ≠ SQLITE_OK then
    some (finish db h.moduleRc arg
      [Event.init, Event.openDb, Event.createModule MODULE_NAME] false h.openHandle)
  else if h.createRc ≠ SQLITE_OK then
    some (finish db h.createRc arg
      [Event.init, Event.openDb, Event.createModule MODULE_NAME,
       Event.execSql createSql]
      false h.openHandle)
  else if h.prepareRc ≠ SQLITE_OK then
    some (finish db h.prepareRc arg
      [Event.init, Event.openDb, Event.createModule MODULE_NAME,
       Event.execSql createSql,
       Event.prepare sql]
      h.prepareStmt h.openHandle)
  else
    match stepLoop h cb fuel 0 arg with
    | none => none
    | some (rc, s, tr) =>
      some (finish db rc s
        ([Event.init, Event.openDb, Event.createModule MODULE_NAME,
          Event.execSql createSql,
          Event.prepare sql] ++ tr)
        h.prepareStmt h.openHandle)

/-- The row delivered at the `i`-th step (counted from 0). -/
def rowAt (h : Host) (i : Nat) : Row := marshal (h.step i) (h.alloc i)

/-- The callback state before the `i`-th invocation (counted from 0), when
every step before it gave a row that was delivered. -/
def argBefore {σ : Type} (h : Host) (cb : σ → Row → σ × Int) (arg : σ) : Nat → σ
  | 0 => arg
  | i + 1 => (cb (argBefore h cb arg i) (rowAt h i)).1

/-- The value the callback returns at its `i`-th invocation (counted from 0). -/
def cbReturn {σ : Type} (h : Host) (cb : σ → Row → σ × Int) (arg : σ) (i : Nat) : Int :=
  (cb (argBefore h cb arg i) (rowAt h i)).2

/-- The `i`-th step gives a row and both arrays of the row are allocated. -/
def rowReady (h : Host) (i : Nat) : Bool :=
  decide ((h.step i).rc = SQLITE_ROW) && (h.alloc i).valuesOk && (h.alloc i).namesOk

/-- Every call up to and including the table creation succeeds. -/
def setupOk (h : Host) : Bool :=
  decide (h.initRc = SQLITE_OK) && decide (h.openRc = SQLITE_OK) &&
    decide (h.moduleRc = SQLITE_OK) && decide (h.createRc = SQLITE_OK)

/-- The calls made up to and including `sqlite3_prepare_v2`. -/
def setupCalls (sql : String) : List Event :=
  [Event.init, Event.openDb, Event.createModule MODULE_NAME,
   Event.execSql createSql, Event.prepare sql]

/-- The calls of the iterations `i, ..., i + n - 1` when each delivers its
row: step, callback, step, callback, ... -/
def deliveries (h : Host) (i n : Nat) : List Event :=
  (List.range' i n).flatMap (fun j => [Event.step, Event.callback (rowAt h j)])

/-- The number of `sqlite3_step` calls in a trace. -/
def stepCount (tr : List Event) : Nat := tr.count Event.step

/-- The rows delivered to the callback in a trace, in order. -/
def callbackRows : List Event → List Row
  | [] => []
  | Event.callback r :: tr => r :: callbackRows tr
  | _ :: tr => callbackRows tr

/-- A statement of two columns with one row `("age", "31")`, then done. -/
def oneRowStep : Nat → StepOut
  | 0 => { rc := SQLITE_ROW, cols := 2,
           text := fun i => if i = 0 then some "age" else some "31",
           name := fun i => if i = 0 then "key" else "value" }
  | _ => { rc := SQLITE_DONE, cols := 0, text := fun _ => none, name := fun _ => "" }

/-- An allocator that never fails. -/
def allocAll : Nat → RowAlloc :=
  fun _ => { valuesOk := true, namesOk := true,
             dupValue := fun _ => true, dupName := fun _ => true }

/-- A host engine on which every call succeeds and the statement is
`oneRowStep`. -/
def demoHost : Host :=
  { initRc := SQLITE_OK, openRc := SQLITE_OK, openHandle := true,
    moduleRc := SQLITE_OK, createRc := SQLITE_OK,
    prepareRc := SQLITE_OK, prepareStmt := true,
    step := oneRowStep, alloc := allocAll }

/-- The host engine `demoHost` with a statement that gives rows for ever. -/
def endlessHost : Host :=
  { demoHost with step := fun _ => oneRowStep 0 }

/-- The host engine `demoHost` rejecting the SQL text with `SQLITE_ERROR`. -/
def rejectingHost : Host :=
  { demoHost with prepareRc := 1, prepareStmt := false }

/-- The host engine `demoHost` whose second step fails with `SQLITE_IOERR`. -/
def failingHost : Host :=
  { demoHost with step := fun i => if i = 0 then oneRowStep 0 else
      { rc := 10, cols := 0, text := fun _ => none, name := fun _ => "" } }

/-- A callback that counts its invocations and asks to stop at the `k`-th. -/
def stopAt (k : Nat) : Nat → Row → Nat × Int :=
  fun n _ => (n + 1, if n + 1 = k then 1 else 0)

/-- A callback that counts its invocations and never asks to stop. -/
def countRows : Nat → Row → Nat × Int :=
  fun n _ => (n + 1, 0)

/-- A store of 4 GiB whose record at offset 16 declares a key of `2^31`
bytes and an empty value; the record lies inside the mapped region. -/
def longKeyStore : KDB :=
  { root := 16
    mapsize := 2 ^ 32
    map := memOfList
      [0, 0, 0, 0, 0, 0, 0, 0, 0, 0, 0, 0, 0, 0, 0, 0,
       0, 0, 0, 128, 0, 0, 0, 0, 0, 0, 0, 0, 0, 0, 0, 0] }

/-! ## Further hosts and helpers for the driver -/

/-- The three calls made after the label `end`. -/
def isCleanup : Event → Bool
  | Event.finalize => true
  | Event.close => true
  | Event.shutdown => true
  | _ => false

/-- The host engine `demoHost` on which `sqlite3_initialize` fails with
`SQLITE_NOMEM`. -/
def initFailHost : Host :=
  { demoHost with initRc := 7 }

/-- The host engine `demoHost` with an allocator whose `strdup` of the value
of column 0 fails at the first row; both row arrays are allocated. -/
def dupFailHost : Host :=
  { demoHost with alloc := fun i =>
      { valuesOk := true, namesOk := true,
        dupValue := fun c => !(i == 0 && c == 0), dupName := fun _ => true } }

/-- The host engine `demoHost` with an allocator whose `strdup` of the name
of column 1 fails at the first row; both row arrays are allocated. -/
def dupNameFailHost : Host :=
  { demoHost with alloc := fun i =>
      { valuesOk := true, namesOk := true,
        dupValue := fun _ => true, dupName := fun c => !(i == 0 && c == 1) } }

/-- The host engine `demoHost` with an allocator whose `malloc` of the names
array fails at the first row. -/
def arrayFailHost : Host :=
  { demoHost with alloc := fun _ =>
      { valuesOk := true, namesOk := false,
        dupValue := fun _ => true, dupName := fun _ => true } }

/-! ## Scans with their rows, and repeated advances -/

/-- One visited record as the host engine reads it: the row identity of
`kyteRowid` and the results of `kyteColumn` for columns 0 and 1. -/
structure ScanRow where
  rowid : Int
  key : SqlResult
  value : SqlResult
deriving DecidableEq, Repr

/-- The row read at the current cursor position. -/
def readRow (g : Option KDB) (cur : KyteCursor) : ScanRow :=
  { rowid := (kyteRowid cur).2.1
    key := (kyteColumn g cur 0).2
    value := (kyteColumn g cur 1).2 }

/-- The loop of `scanFrom`, collecting the row read at every visited record.
Each unit of fuel pays for one `kyteEof` test. -/
def scanRowsFrom (g : Option KDB) : Nat → KyteCursor → Option (List ScanRow)
  | 0, _ => none
  | fuel + 1, cur =>
    if kyteEof g cur ≠ 0 then some []
    else
      match scanRowsFrom g fuel (kyteNext g cur).2 with
      | none => none
      | some l => some (readRow g cur :: l)

/-- The rows of the first `n` records of a scan, or of all of them when the
scan ends earlier; defined for scans that never end as well. -/
def scanRowsTake (g : Option KDB) : Nat → KyteCursor → List ScanRow
  | 0, _ => []
  | n + 1, cur =>
    if kyteEof g cur ≠ 0 then []
    else readRow g cur :: scanRowsTake g n (kyteNext g cur).2

/-- The first statement of `kytesql_exec`, `g_db = db;`: the binding in force
before the call is overwritten. -/
def execBind (_prev : Option KDB) (db : Option KDB) : Option KDB := db

/-- The table scan the host engine runs during `kytesql_exec(db, ...)` when
the binding was `prev` before the call: the cursor of `kyteOpen` is positioned
by `kyteFilter` and driven to the end, all under the binding of `execBind`. -/
def execScan {V : Type} (prev db : Option KDB) (fuel : Nat) (idxNum : Int)
    (idxStr : Option String) (argc : Int) (argv : List V) : Option (List ScanRow) :=
  match (kyteOpen (execBind prev db) true).2 with
  | none => none
  | some cur =>
    scanRowsFrom (execBind prev db) fuel
      (kyteFilter (execBind prev db) cur idxNum idxStr argc argv).2

/-- The cursor after `k` calls of `kyteNext`. -/
def advanceN (g : Option KDB) : Nat → KyteCursor → KyteCursor
  | 0, cur => cur
  | k + 1, cur => (kyteNext g (advanceN g k cur)).2

/-- The offset is a record start: `0 < o < mapsize`. -/
def inRange (db : KDB) (o : Nat) : Bool :=
  decide (0 < o) && decide (o < db.mapsize)

/-- The `k`-th offset of the chain that starts at the root, following the
`next` fields whatever they hold. -/
def chainAt (db : KDB) : Nat → Nat
  | 0 => db.root
  | k + 1 => (entryAt db (chainAt db k)).next

/-- A store of 64 bytes whose only record, at the root offset 16, has itself
as its `next`. -/
def selfLoopStore : KDB :=
  { root := 16
    mapsize := 64
    map := memOfList
      [0, 0, 0, 0, 0, 0, 0, 0, 0, 0, 0, 0, 0, 0, 0, 0,
       1, 0, 0, 0, 1, 0, 0, 0, 16, 0, 0, 0, 0, 0, 0, 0,
       107, 118] }

/-- A store of 64 bytes with records at offsets 16 and 40 that point at each
other; the root is 16. -/
def twoCycleStore : KDB :=
  { root := 16
    mapsize := 64
    map := memOfList
      [0, 0, 0, 0, 0, 0, 0, 0, 0, 0, 0, 0, 0, 0, 0, 0,
       1, 0, 0, 0, 2, 0, 0, 0, 40, 0, 0, 0, 0, 0, 0, 0,
       107, 118, 49, 0, 0, 0, 0, 0,
       2, 0, 0, 0, 1, 0, 0, 0, 16, 0, 0, 0, 0, 0, 0, 0,
       97, 98, 99] }

/-! ## The planner callback `kyteBestIndex` -/

/-- One entry of `aConstraint` in `sqlite3_index_info` (`sqlite3.h`). -/
structure IndexConstraint where
  iColumn : Int
  op : Nat
  usable : Bool
  iTermOffset : Int
deriving DecidableEq, Repr

/-- One entry of `aOrderBy` in `sqlite3_index_info`. -/
structure IndexOrderBy where
  iColumn : Int
  desc : Bool
deriving DecidableEq, Repr

/-- One entry of `aConstraintUsage` in `sqlite3_index_info`: a constraint is
used when its `argvIndex` is positive; `omitTerm` is the field `omit`. -/
structure ConstraintUsage where
  argvIndex : Int
  omitTerm : Bool
deriving DecidableEq, Repr

/-- The structure `sqlite3_index_info` of `sqlite3.h`: the inputs
`aConstraint`, `aOrderBy` and `colUsed`, and the outputs the callback may
write. `estimatedCost` is a `double`; the values that occur here are whole
numbers and are kept as rationals. -/
structure IndexInfo where
  aConstraint : List IndexConstraint
  aOrderBy : List IndexOrderBy
  aConstraintUsage : List ConstraintUsage
  idxNum : Int
  idxStr : Option String
  needToFreeIdxStr : Int
  orderByConsumed : Int
  estimatedCost : ℚ
  estimatedRows : Int
  idxFlags : Int
  colUsed : Nat
deriving DecidableEq

/-- Embedding of `kyteBestIndex`: three fields of `*pIdxInfo` are written, the
others are left as they were. -/
def kyteBestIndex (pIdxInfo : IndexInfo) : Int × IndexInfo :=
  (SQLITE_OK,
    { pIdxInfo with idxNum := 0, estimatedCost := 1000000000, estimatedRows := 1000000 })

/-- The index info the host planner passes for `WHERE key LIKE 'a%' ORDER BY
key`: one usable constraint on column 0, one ordering term, and the outputs
as the host engine sets them before the call. -/
def demoIndexInfo : IndexInfo :=
  { aConstraint := [{ iColumn := 0, op := 65, usable := true, iTermOffset := 0 }]
    aOrderBy := [{ iColumn := 0, desc := false }]
    aConstraintUsage := [{ argvIndex := 0, omitTerm := false }]
    idxNum := 0
    idxStr := none
    needToFreeIdxStr := 0
    orderByConsumed := 0
    estimatedCost := 5
    estimatedRows := 25
    idxFlags := 0
    colUsed := 3 }

/-! ## A record that extends past the mapped region -/

/-- A store of 40 bytes whose record at offset 16 declares a key of 100 bytes
and a value of 7 bytes. -/
def overrunStore : KDB :=
  { root := 16
    mapsize := 40
    map := memOfList
      [0, 0, 0, 0, 0, 0, 0, 0, 0, 0, 0, 0, 0, 0, 0, 0,
       100, 0, 0, 0, 7, 0, 0, 0, 0, 0, 0, 0, 0, 0, 0, 0,
       107, 107, 107, 107, 107, 107, 107, 107] }

/-- The store `overrunStore` with one more byte, at address 40, the first
address past its mapped region. -/
def overrunStoreAlt : KDB :=
  { root := 16
    mapsize := 40
    map := memOfList
      [0, 0, 0, 0, 0, 0, 0, 0, 0, 0, 0, 0, 0, 0, 0, 0,
       100, 0, 0, 0, 7, 0, 0, 0, 0, 0, 0, 0, 0, 0, 0, 0,
       107, 107, 107, 107, 107, 107, 107, 107, 33] }

/-! ## The demonstration of `main` -/

/-- Modelled from the spec: the store after the three `kytedb_put` calls of
`main` (`kytedb.c` is not part of the sources): the record set
`("name","Alice")`, `("age","31")`, `("city","NYC")`, here at offsets 16, 48
and 72 and chained in that order, in a region of `1 << 26` bytes. -/
def kvStore : KDB :=
  { root := 16
    mapsize := 2 ^ 26
    map := memOfList
      [0, 0, 0, 0, 0, 0, 0, 0, 0, 0, 0, 0, 0, 0, 0, 0,
       4, 0, 0, 0, 5, 0, 0, 0, 48, 0, 0, 0, 0, 0, 0, 0,
       110, 97, 109, 101, 65, 108, 105, 99, 101, 0, 0, 0, 0, 0, 0, 0,
       3, 0, 0, 0, 2, 0, 0, 0, 72, 0, 0, 0, 0, 0, 0, 0,
       97, 103, 101, 51, 49, 0, 0, 0,
       4, 0, 0, 0, 3, 0, 0, 0, 0, 0, 0, 0, 0, 0, 0, 0,
       99, 105, 116, 121, 78, 89, 67] }

/-- Modelled from the spec: the same record set chained in the opposite
order, as a writer that puts new records in front leaves it: the root is the
record at 72, which leads to 48 and then to 16. -/
def kvStoreRev : KDB :=
  { root := 72
    mapsize := 2 ^ 26
    map := memOfList
      [0, 0, 0, 0, 0, 0, 0, 0, 0, 0, 0, 0, 0, 0, 0, 0,
       4, 0, 0, 0, 5, 0, 0, 0, 0, 0, 0, 0, 0, 0, 0, 0,
       110, 97, 109, 101, 65, 108, 105, 99, 101, 0, 0, 0, 0, 0, 0, 0,
       3, 0, 0, 0, 2, 0, 0, 0, 16, 0, 0, 0, 0, 0, 0, 0,
       97, 103, 101, 51, 49, 0, 0, 0,
       4, 0, 0, 0, 3, 0, 0, 0, 48, 0, 0, 0, 0, 0, 0, 0,
       99, 105, 116, 121, 78, 89, 67] }

/-- The key and value bytes of the rows of a scan; a row whose key or value
is null or of negative length is left out. -/
def rowBytes (db : KDB) : List ScanRow → List (List Nat × List Nat)
  | [] => []
  | r :: rs =>
    match resultBytes db r.key, resultBytes db r.value with
    | some k, some v => (k, v) :: rowBytes db rs
    | _, _ => rowBytes db rs

/-- The rows of the table `kv` as the host engine scans them during
`kytesql_exec(db, ...)`. -/
def tableRows (db : KDB) (fuel : Nat) : List (List Nat × List Nat) :=
  match execScan none (some db) fuel 0 none 0 ([] : List Unit) with
  | none => []
  | some rows => rowBytes db rows

/-- The text of a byte string. -/
def textOf (l : List Nat) : String := String.mk (l.map Char.ofNat)

theorem isChainFrom_nil (db : KDB) (o : Nat) :
    isChainFrom db o [] = true ↔ o = 0 := by
  simp [isChainFrom]

theorem isChainFrom_cons (db : KDB) (o x : Nat) (xs : List Nat) :
    isChainFrom db o (x :: xs) = true ↔
      o = x ∧ 0 < o ∧ o < db.mapsize ∧ isChainFrom db (entryAt db o).next xs = true := by
  simp [isChainFrom, and_assoc]

/-- The chain from an offset is determined by the store. -/
theorem isChainFrom_unique (db : KDB) :
    ∀ (l₁ l₂ : List Nat) (o : Nat),
      isChainFrom db o l₁ = true → isChainFrom db o l₂ = true → l₁ = l₂
  | [], [], _, _, _ => rfl
  | [], y :: ys, o, h₁, h₂ => by
    rw [isChainFrom_nil] at h₁
    rw [isChainFrom_cons] at h₂
    omega
  | x :: xs, [], o, h₁, h₂ => by
    rw [isChainFrom_nil] at h₂
    rw [isChainFrom_cons] at h₁
    omega
  | x :: xs, y :: ys, o, h₁, h₂ => by
    rw [isChainFrom_cons] at h₁ h₂
    obtain ⟨hx, -, -, h₁⟩ := h₁
    obtain ⟨hy, -, -, h₂⟩ := h₂
    rw [isChainFrom_unique db xs ys _ h₁ h₂, ← hx, ← hy]

/-- Every offset of a chain starts a chain of its own, which is a proper
tail of the chain when the offset is not the first one. -/
theorem isChainFrom_tail (db : KDB) :
    ∀ (l : List Nat) (o x : Nat), isChainFrom db o l = true → x ∈ l →
      ∃ l', isChainFrom db x l' = true ∧ l'.length ≤ l.length
  | [], _, _, _, hx => by simp at hx
  | y :: ys, o, x, h, hx => by
    rcases List.mem_cons.mp hx with hxy | hxy
    · refine ⟨y :: ys, ?_, le_rfl⟩
      have hoy : o = y := ((isChainFrom_cons db o y ys).mp h).1
      rw [hxy, ← hoy, hoy]
      exact hoy ▸ h
    · rw [isChainFrom_cons] at h
      obtain ⟨l', hl', hlen⟩ := isChainFrom_tail db ys _ x h.2.2.2 hxy
      exact ⟨l', hl', by simp; omega⟩

/-- A chain that ends never holds an offset twice. -/
theorem isChainFrom_nodup (db : KDB) :
    ∀ (l : List Nat) (o : Nat), isChainFrom db o l = true → l.Nodup
  | [], _, _ => List.nodup_nil
  | x :: xs, o, h => by
    have h' := h
    rw [isChainFrom_cons] at h'
    obtain ⟨hox, -, -, hrest⟩ := h'
    refine List.nodup_cons.mpr ⟨?_, isChainFrom_nodup db xs _ hrest⟩
    intro hmem
    obtain ⟨l', hl', hlen⟩ := isChainFrom_tail db xs _ x hrest hmem
    rw [hox] at h
    have := isChainFrom_unique db _ _ _ h hl'
    rw [← this] at hlen
    simp at hlen

/-- The scan loop started at the head of a chain visits the chain and stops
with the cursor at offset `0`. -/
theorem scanFrom_chain (db : KDB) :
    ∀ (l : List Nat) (o fuel : Nat), isChainFrom db o l = true → l.length < fuel →
      scanFrom (some db) fuel ⟨o⟩ = some (l, ⟨0⟩)
  | [], o, fuel, h, hf => by
    rw [isChainFrom_nil] at h
    obtain ⟨f, rfl⟩ : ∃ f, fuel = f + 1 := ⟨fuel - 1, by simp at hf; omega⟩
    simp [scanFrom, kyteEof, h]
  | x :: xs, o, fuel, h, hf => by
    rw [isChainFrom_cons] at h
    obtain ⟨hox, hpos, hlt, hrest⟩ := h
    obtain ⟨f, rfl⟩ : ∃ f, fuel = f + 1 := ⟨fuel - 1, by simp at hf; omega⟩
    have hrec := scanFrom_chain db xs _ f hrest (by simp at hf; omega)
    have hne : o ≠ 0 := by omega
    have hnext : (kyteNext (some db) ⟨o⟩).2 = ⟨(entryAt db o).next⟩ := by
      simp [kyteNext, hne, hlt]
    have heof : kyteEof (some db) ⟨o⟩ = 0 := by
      simp [kyteEof, hne, hlt]
    rw [scanFrom, heof, hnext, hrec]
    simp [hox]

/-- C1: for a store whose chain from the root is well-formed (the list `l` of
its offsets, each a record start inside the mapped region, linked by `next`
and ended by `next = 0`), the scan `kyteFilter` then `kyteNext` until
`kyteEof` returns as soon as the fuel pays for `l.length + 1` end tests, has
visited exactly the offsets `l` in chain order (so `l.length` records), ends
with the cursor at end, and visited no offset twice. -/
theorem full_scan_visits_chain (db : KDB) (l : List Nat) (cur : KyteCursor) (fuel : Nat)
    (hchain : isChainFrom db db.root l = true) (hfuel : l.length < fuel) :
    (∃ c, fullScan (some db) fuel cur = some (l, c) ∧ kyteEof (some db) c = 1) ∧
      l.Nodup := by
  refine ⟨⟨⟨0⟩, ?_, by simp [kyteEof]⟩, isChainFrom_nodup db l _ hchain⟩
  simp only [fullScan, kyteFilter]
  exact scanFrom_chain db l _ fuel hchain hfuel

/-- C1 at the two-record store `demoStore`, from a cursor left at offset 7. -/
theorem full_scan_visits_chain_witness :
    isChainFrom demoStore demoStore.root [16, 40] = true ∧
      ((∃ c, fullScan (some demoStore) 3 ⟨7⟩ = some ([16, 40], c) ∧
          kyteEof (some demoStore) c = 1) ∧ [16, 40].Nodup) :=
  ⟨by decide, full_scan_visits_chain demoStore [16, 40] ⟨7⟩ 3 (by decide) (by decide)⟩

/-! ## Column reads -/

theorem toInt32_of_lt (x : Nat) (h : x < 2 ^ 31) : toInt32 x = (x : Int) := by
  have h2 : x % 2 ^ 32 = x := Nat.mod_eq_of_lt (by omega)
  unfold toInt32
  rw [h2, if_pos h]

theorem resultBytes_text (db : KDB) (z n : Nat) :
    resultBytes db (.text z (n : Int)) = some (bytesAt db z n) := by
  simp [resultBytes]

theorem resultBytes_blob (db : KDB) (z n : Nat) :
    resultBytes db (.blob z (n : Int)) = some (bytesAt db z n) := by
  simp [resultBytes]

/-- C2, as the claim states it, fails: the record at offset 16 of
`longKeyStore` lies inside the mapped region and declares a key of `2^31`
bytes, and the length `kyteColumn` passes for column 0 is `(int)klen`, which
is negative, so the text handed over is not the `klen` key bytes. -/
theorem column_long_key_counterexample :
    0 < (16 : Nat) ∧ 16 < longKeyStore.mapsize ∧
      (entryAt longKeyStore 16).klen = 2147483648 ∧
      16 + sizeofEntry + (entryAt longKeyStore 16).klen + (entryAt longKeyStore 16).vlen
        ≤ longKeyStore.mapsize ∧
      kyteColumn (some longKeyStore) ⟨16⟩ 0 = (SQLITE_OK, .text 32 (-2147483648)) ∧
      resultBytes longKeyStore (kyteColumn (some longKeyStore) ⟨16⟩ 0).2 = none := by
  decide

/-- C2 (amended): on a cursor at a record (`0 < off < mapsize`) whose key
length is below `2^31`, column 0 is the text of exactly the `klen` bytes that
follow the fixed header; when the value length is below `2^31`, column 1 is
the blob of exactly the `vlen` bytes that follow the key; every other column
is null. With the cursor at `0` or at or past `mapsize`, or with no store
bound, every column is null. The status is `SQLITE_OK` throughout. -/
theorem column_reads_record (db : KDB) (cur : KyteCursor) (col : Int) :
    (0 < cur.off → cur.off < db.mapsize →
      ((entryAt db cur.off).klen < 2 ^ 31 →
        kyteColumn (some db) cur 0 =
          (SQLITE_OK, .text (cur.off + sizeofEntry) (entryAt db cur.off).klen) ∧
        resultBytes db (kyteColumn (some db) cur 0).2 =
          some (bytesAt db (cur.off + sizeofEntry) (entryAt db cur.off).klen)) ∧
      ((entryAt db cur.off).vlen < 2 ^ 31 →
        kyteColumn (some db) cur 1 =
          (SQLITE_OK, .blob (cur.off + sizeofEntry + (entryAt db cur.off).klen)
            (entryAt db cur.off).vlen) ∧
        resultBytes db (kyteColumn (some db) cur 1).2 =
          some (bytesAt db (cur.off + sizeofEntry + (entryAt db cur.off).klen)
            (entryAt db cur.off).vlen)) ∧
      (col ≠ 0 → col ≠ 1 → kyteColumn (some db) cur col = (SQLITE_OK, .null))) ∧
    (cur.off = 0 ∨ db.mapsize ≤ cur.off →
      kyteColumn (some db) cur col = (SQLITE_OK, .null)) ∧
    kyteColumn none cur col = (SQLITE_OK, .null) := by
  refine ⟨fun hpos hlt => ?_, fun hend => ?_, rfl⟩
  · have hguard : ¬ (cur.off = 0 ∨ cur.off ≥ db.mapsize) := by omega
    refine ⟨fun hk => ?_, fun hv => ?_, fun h0 h1 => ?_⟩
    · have hcol : kyteColumn (some db) cur 0 =
          (SQLITE_OK, .text (cur.off + sizeofEntry) (entryAt db cur.off).klen) := by
        simp [kyteColumn, hguard, toInt32_of_lt _ hk]
      exact ⟨hcol, by rw [hcol]; exact resultBytes_text db _ _⟩
    · have hcol : kyteColumn (some db) cur 1 =
          (SQLITE_OK, .blob (cur.off + sizeofEntry + (entryAt db cur.off).klen)
            (entryAt db cur.off).vlen) := by
        simp [kyteColumn, hguard, toInt32_of_lt _ hv]
      exact ⟨hcol, by rw [hcol]; exact resultBytes_blob db _ _⟩
    · simp [kyteColumn, hguard, h0, h1]
  · have hguard : cur.off = 0 ∨ cur.off ≥ db.mapsize := hend
    simp [kyteColumn, hguard]

/-- C2 (amended) at the first record of `demoStore`: the key is `"k"`, the
value is `"v1"`. -/
theorem column_reads_record_witness :
    resultBytes demoStore (kyteColumn (some demoStore) ⟨16⟩ 0).2 = some [107] ∧
      resultBytes demoStore (kyteColumn (some demoStore) ⟨16⟩ 1).2 = some [118, 49] ∧
      kyteColumn (some demoStore) ⟨16⟩ 2 = (SQLITE_OK, .null) := by
  have h := (column_reads_record demoStore ⟨16⟩ 2).1 (by decide) (by decide)
  refine ⟨?_, ?_, h.2.2 (by decide) (by decide)⟩
  · rw [(h.1 (by decide)).2]; decide
  · rw [(h.2.1 (by decide)).2]; decide

/-! ## Offsets outside the mapped region -/

/-- C3: with the cursor at an offset `o` that is `0` or at or past `mapsize`,
`kyteEof` is true, `kyteColumn` is null for every column, `kyteNext` leaves
the cursor at `0`, and the three answers are the same whatever the mapped
region holds: none of the mapped bytes is read. -/
theorem invalid_offset_is_end (db : KDB) (o : Nat) (col : Int)
    (ho : o = 0 ∨ db.mapsize ≤ o) :
    kyteEof (some db) ⟨o⟩ = 1 ∧
      kyteColumn (some db) ⟨o⟩ col = (SQLITE_OK, .null) ∧
      kyteNext (some db) ⟨o⟩ = (SQLITE_OK, ⟨0⟩) ∧
      ∀ m : Nat → Nat,
        kyteEof (some { db with map := m }) ⟨o⟩ = kyteEof (some db) ⟨o⟩ ∧
        kyteColumn (some { db with map := m }) ⟨o⟩ col = kyteColumn (some db) ⟨o⟩ col ∧
        kyteNext (some { db with map := m }) ⟨o⟩ = kyteNext (some db) ⟨o⟩ := by
  have hguard : o = 0 ∨ o ≥ db.mapsize := ho
  have hn : ¬ (o ≠ 0 ∧ o < db.mapsize) := by omega
  refine ⟨by simp [kyteEof, hguard], by simp [kyteColumn, hguard],
    by simp [kyteNext, hn], fun m => ?_⟩
  simp [kyteEof, kyteColumn, kyteNext, hguard, hn]

/-- C3 at `demoStore`, offset 64 (the size of the mapped region), column 0. -/
theorem invalid_offset_is_end_witness :
    (64 = 0 ∨ demoStore.mapsize ≤ 64) ∧
      kyteEof (some demoStore) ⟨64⟩ = 1 ∧
      kyteColumn (some demoStore) ⟨64⟩ 0 = (SQLITE_OK, .null) ∧
      kyteNext (some demoStore) ⟨64⟩ = (SQLITE_OK, ⟨0⟩) :=
  have h := invalid_offset_is_end demoStore 64 0 (by decide)
  ⟨by decide, h.1, h.2.1, h.2.2.1⟩

/-! ## Advance, end test, open and restart -/

/-- C4: `kyteNext` always returns `SQLITE_OK`; with a store bound and the
offset non-zero and below `mapsize`, the new offset is the `next` field of the
record at the current offset; with the offset `0`, the offset at or past
`mapsize`, or no store bound, the new offset is `0`. -/
theorem next_moves_along_chain (g : Option KDB) (cur : KyteCursor) :
    (kyteNext g cur).1 = SQLITE_OK ∧
      (∀ db, g = some db → cur.off ≠ 0 → cur.off < db.mapsize →
        (kyteNext g cur).2.off = (entryAt db cur.off).next) ∧
      (∀ db, g = some db → cur.off = 0 ∨ db.mapsize ≤ cur.off →
        (kyteNext g cur).2.off = 0) ∧
      (g = none → (kyteNext g cur).2.off = 0) := by
  refine ⟨?_, ?_, ?_, ?_⟩
  · cases g with
    | none => rfl
    | some db =>
      by_cases hc : cur.off ≠ 0 ∧ cur.off < db.mapsize <;> simp [kyteNext, hc]
  · intro db hg h0 hlt
    subst hg
    simp [kyteNext, h0, hlt]
  · intro db hg hend
    subst hg
    have hn : ¬ (cur.off ≠ 0 ∧ cur.off < db.mapsize) := by omega
    simp [kyteNext, hn]
  · intro hg
    subst hg
    rfl

/-- C4 at `demoStore`: from offset 16 to 40, from 40 to 0, from 64 to 0, and
to 0 with no store bound. -/
theorem next_moves_along_chain_witness :
    (kyteNext (some demoStore) ⟨16⟩).2.off = 40 ∧
      (kyteNext (some demoStore) ⟨40⟩).2.off = 0 ∧
      (kyteNext (some demoStore) ⟨64⟩).2.off = 0 ∧
      (kyteNext none ⟨16⟩).2.off = 0 :=
  ⟨(next_moves_along_chain (some demoStore) ⟨16⟩).2.1 demoStore rfl (by decide) (by decide),
   (next_moves_along_chain (some demoStore) ⟨40⟩).2.1 demoStore rfl (by decide) (by decide),
   (next_moves_along_chain (some demoStore) ⟨64⟩).2.2.1 demoStore rfl (by decide),
   (next_moves_along_chain none ⟨16⟩).2.2.2 rfl⟩

/-- C5, as the claim states it, fails: with `demoStore` bound and the cursor
at offset 64, the size of the mapped region, `kyteEof` is true although the
offset is not the sentinel `0`. -/
theorem eof_past_mapsize_counterexample :
    ¬ (∀ (db : KDB) (cur : KyteCursor), kyteEof (some db) cur = 1 ↔ cur.off = 0) := by
  intro h
  have h64 : kyteEof (some demoStore) ⟨64⟩ = 1 := by decide
  have := (h demoStore ⟨64⟩).mp h64
  exact absurd this (by decide)

/-- C5 (amended): with a store bound, `kyteEof` is true exactly when the
offset is `0` or at or past `mapsize`, and it is `0` otherwise. -/
theorem eof_iff_invalid_offset (db : KDB) (cur : KyteCursor) :
    (kyteEof (some db) cur = 1 ↔ (cur.off = 0 ∨ db.mapsize ≤ cur.off)) ∧
      (kyteEof (some db) cur = 0 ↔ (0 < cur.off ∧ cur.off < db.mapsize)) := by
  by_cases hc : cur.off = 0 ∨ cur.off ≥ db.mapsize
  · have hn : ¬ (0 < cur.off ∧ cur.off < db.mapsize) := by omega
    have he : kyteEof (some db) cur = 1 := by simp [kyteEof, hc]
    rw [he]
    exact ⟨⟨fun _ => hc, fun _ => rfl⟩, ⟨fun h => absurd h (by decide), fun h => absurd h hn⟩⟩
  · have h2 : 0 < cur.off ∧ cur.off < db.mapsize := by omega
    have he : kyteEof (some db) cur = 0 := by simp [kyteEof, hc]
    rw [he]
    exact ⟨⟨fun h => absurd h (by decide), fun h => absurd h hc⟩, ⟨fun _ => h2, fun _ => rfl⟩⟩

/-- C6: `kyteOpen` with the cursor allocated returns `SQLITE_OK` and a cursor
at `root` when a store is bound and at `0` when none is; `kyteFilter` returns
`SQLITE_OK` and leaves the cursor at `root` (at `0` with no store bound) for
every previous cursor and every `idxNum`, `idxStr`, `argc`, `argv`, so two
calls with the same binding agree whatever their other arguments. -/
theorem open_and_filter_position_at_root {V W : Type} (g : Option KDB) (db : KDB)
    (cur cur' : KyteCursor) (idxNum idxNum' : Int) (idxStr idxStr' : Option String)
    (argc argc' : Int) (argv : List V) (argv' : List W) :
    kyteOpen (some db) true = (SQLITE_OK, some ⟨db.root⟩) ∧
      kyteOpen none true = (SQLITE_OK, some ⟨0⟩) ∧
      kyteFilter (some db) cur idxNum idxStr argc argv = (SQLITE_OK, ⟨db.root⟩) ∧
      kyteFilter none cur idxNum idxStr argc argv = (SQLITE_OK, ⟨0⟩) ∧
      kyteFilter g cur idxNum idxStr argc argv =
        kyteFilter g cur' idxNum' idxStr' argc' argv' := by
  refine ⟨rfl, rfl, rfl, rfl, ?_⟩
  cases g <;> rfl

/-! ## Row identity -/

theorem toInt64_mod (x : Nat) (h : x < 2 ^ 64) : toInt64 x % 2 ^ 64 = (x : Int) := by
  have h2 : x % 2 ^ 64 = x := Nat.mod_eq_of_lt h
  unfold toInt64
  rw [h2]
  split <;> omega

theorem toInt64_range (x : Nat) : -2 ^ 63 ≤ toInt64 x ∧ toInt64 x < 2 ^ 63 := by
  have h2 : x % 2 ^ 64 < 2 ^ 64 := Nat.mod_lt _ (by norm_num)
  unfold toInt64
  split <;> omega

/-- C7: for a cursor offset that is a 64-bit unsigned value, `kyteRowid`
returns `SQLITE_OK`, leaves the cursor as it is, and reports the offset
converted to a signed 64-bit integer: a value of the signed 64-bit range with
the same 64 bits as the offset (equal to it modulo `2^64`), which is the
offset itself when the offset is below `2^63`; so distinct offsets get
distinct row identities. -/
theorem rowid_is_offset (cur : KyteCursor) (h : cur.off < 2 ^ 64) :
    (kyteRowid cur).1 = SQLITE_OK ∧
      (kyteRowid cur).2.2 = cur ∧
      (kyteRowid cur).2.1 % 2 ^ 64 = (cur.off : Int) ∧
      (-2 ^ 63 ≤ (kyteRowid cur).2.1 ∧ (kyteRowid cur).2.1 < 2 ^ 63) ∧
      (cur.off < 2 ^ 63 → (kyteRowid cur).2.1 = (cur.off : Int)) ∧
      (∀ cur' : KyteCursor, cur'.off < 2 ^ 64 →
        (kyteRowid cur').2.1 = (kyteRowid cur).2.1 → cur' = cur) := by
  refine ⟨rfl, rfl, toInt64_mod _ h, toInt64_range _, fun h63 => ?_, fun cur' h' heq => ?_⟩
  · have h2 : cur.off % 2 ^ 64 = cur.off := Nat.mod_eq_of_lt h
    simp only [kyteRowid]
    unfold toInt64
    rw [h2, if_pos h63]
  · have h1 := toInt64_mod _ h
    have h2 := toInt64_mod _ h'
    simp only [kyteRowid] at heq
    rw [heq, h1] at h2
    cases cur
    cases cur'
    simp only [KyteCursor.mk.injEq]
    exact_mod_cast h2.symm

/-- C7 at offsets 40 and `2^63`. -/
theorem rowid_is_offset_witness :
    (kyteRowid ⟨40⟩).2.1 = 40 ∧ (kyteRowid ⟨2 ^ 63⟩).2.1 % 2 ^ 64 = 2 ^ 63 :=
  ⟨(rowid_is_offset ⟨40⟩ (by decide)).2.2.2.2.1 (by decide),
   by simpa using (rowid_is_offset ⟨2 ^ 63⟩ (by decide)).2.2.1⟩

/-! ## The stepping loop of `kytesql_exec` -/

theorem deliveries_succ (h : Host) (i n : Nat) :
    deliveries h i (n + 1) =
      Event.step :: Event.callback (rowAt h i) :: deliveries h (i + 1) n := by
  simp [deliveries, List.range'_succ]

theorem deliveries_concat (h : Host) (i n : Nat) :
    deliveries h i (n + 1) =
      deliveries h i n ++ [Event.step, Event.callback (rowAt h (i + n))] := by
  simp [deliveries, List.range'_concat]

theorem stepCount_append (a b : List Event) :
    stepCount (a ++ b) = stepCount a + stepCount b := by
  simp [stepCount]

theorem callbackRows_append (a b : List Event) :
    callbackRows (a ++ b) = callbackRows a ++ callbackRows b := by
  induction a with
  | nil => rfl
  | cons e a ih => cases e <;> simp [callbackRows, ih]

theorem stepCount_deliveries (h : Host) : ∀ n i, stepCount (deliveries h i n) = n
  | 0, _ => by simp [deliveries, stepCount]
  | n + 1, i => by
    have ih : List.count Event.step (deliveries h (i + 1) n) = n :=
      stepCount_deliveries h n (i + 1)
    rw [deliveries_succ]
    simp [stepCount, ih]

theorem callbackRows_deliveries (h : Host) :
    ∀ n i, callbackRows (deliveries h i n) = (List.range' i n).map (rowAt h)
  | 0, _ => by simp [deliveries, callbackRows]
  | n + 1, i => by
    rw [deliveries_succ]
    simp [callbackRows, callbackRows_deliveries h n (i + 1), List.range'_succ]

theorem stepCount_setupCalls (sql : String) : stepCount (setupCalls sql) = 0 := by
  simp [stepCount, setupCalls]

theorem callbackRows_setupCalls (sql : String) : callbackRows (setupCalls sql) = [] := by
  simp [callbackRows, setupCalls]

theorem stepCount_cleanupCalls (stmt handle : Bool) :
    stepCount (cleanupCalls stmt handle) = 0 := by
  cases stmt <;> cases handle <;> decide

theorem callbackRows_cleanupCalls (stmt handle : Bool) :
    callbackRows (cleanupCalls stmt handle) = [] := by
  cases stmt <;> cases handle <;> rfl

theorem rowReady_iff (h : Host) (i : Nat) :
    rowReady h i = true ↔
      (h.step i).rc = SQLITE_ROW ∧ (h.alloc i).valuesOk = true ∧ (h.alloc i).namesOk = true := by
  simp [rowReady, and_assoc]

/-- One iteration that delivers its row and is not asked to stop. -/
theorem stepLoop_continue {σ : Type} (h : Host) (cb : σ → Row → σ × Int)
    (fuel i : Nat) (s : σ) (hr : rowReady h i = true) (hz : (cb s (rowAt h i)).2 = 0) :
    stepLoop h cb (fuel + 1) i s =
      match stepLoop h cb fuel (i + 1) (cb s (rowAt h i)).1 with
      | none => none
      | some (rc, s', tr) => some (rc, s', Event.step :: Event.callback (rowAt h i) :: tr) := by
  obtain ⟨hrc, hv, hn⟩ := (rowReady_iff h i).mp hr
  have hz' : (cb s (marshal (h.step i) (h.alloc i))).2 = 0 := hz
  rw [stepLoop]
  simp only [hrc, hv, hn, hz', rowAt]
  simp

/-- The iteration at which the callback asks to stop. -/
theorem stepLoop_stop {σ : Type} (h : Host) (cb : σ → Row → σ × Int)
    (fuel i : Nat) (s : σ) (hr : rowReady h i = true) (hz : (cb s (rowAt h i)).2 ≠ 0) :
    stepLoop h cb (fuel + 1) i s =
      some (SQLITE_ROW, (cb s (rowAt h i)).1, [Event.step, Event.callback (rowAt h i)]) := by
  obtain ⟨hrc, hv, hn⟩ := (rowReady_iff h i).mp hr
  have hz' : (cb s (marshal (h.step i) (h.alloc i))).2 ≠ 0 := hz
  rw [stepLoop]
  simp only [hrc, hv, hn, rowAt]
  simp [hz']

/-- The iteration at which the step gives no row. -/
theorem stepLoop_end {σ : Type} (h : Host) (cb : σ → Row → σ × Int)
    (fuel i : Nat) (s : σ) (hrc : (h.step i).rc ≠ SQLITE_ROW) :
    stepLoop h cb (fuel + 1) i s = some ((h.step i).rc, s, [Event.step]) := by
  rw [stepLoop]
  simp [hrc]

/-- The loop over `n` iterations that each deliver a row without a stop
request, followed by whatever the loop does from iteration `i + n` on. -/
theorem stepLoop_deliver {σ : Type} (h : Host) (cb : σ → Row → σ × Int) (arg : σ) :
    ∀ (n i fuel : Nat) (rc : Int) (s : σ) (tr : List Event),
      (∀ j, i ≤ j → j < i + n → rowReady h j = true ∧ cbReturn h cb arg j = 0) →
      stepLoop h cb fuel (i + n) (argBefore h cb arg (i + n)) = some (rc, s, tr) →
      stepLoop h cb (fuel + n) i (argBefore h cb arg i) =
        some (rc, s, deliveries h i n ++ tr)
  | 0, i, fuel, rc, s, tr, _, hend => by
    simpa [deliveries] using hend
  | n + 1, i, fuel, rc, s, tr, hrows, hend => by
    obtain ⟨hr, hz⟩ := hrows i le_rfl (by omega)
    have hidx : i + 1 + n = i + (n + 1) := by omega
    have ih := stepLoop_deliver h cb arg n (i + 1) fuel rc s tr
      (fun j h1 h2 => hrows j (by omega) (by omega)) (by rw [hidx]; exact hend)
    have hfuel : fuel + (n + 1) = (fuel + n) + 1 := by omega
    rw [hfuel, stepLoop_continue h cb (fuel + n) i _ hr hz]
    have hstate : (cb (argBefore h cb arg i) (rowAt h i)).1 = argBefore h cb arg (i + 1) := rfl
    rw [hstate, ih, deliveries_succ]
    rfl

/-- With the set-up and the preparation successful, `kytesql_exec` is the
loop between the set-up calls and the calls after `end`. -/
theorem kytesql_exec_loop {σ : Type} (h : Host) (fuel : Nat) (db : Option KDB)
    (sql : String) (cb : σ → Row → σ × Int) (arg : σ)
    (hsetup : setupOk h = true) (hprep : h.prepareRc = SQLITE_OK) :
    kytesql_exec h fuel db sql cb arg =
      match stepLoop h cb fuel 0 arg with
      | none => none
      | some (rc, s, tr) =>
        some (finish db rc s (setupCalls sql ++ tr) h.prepareStmt h.openHandle) := by
  simp only [setupOk, Bool.and_eq_true, decide_eq_true_eq] at hsetup
  obtain ⟨⟨⟨h1, h2⟩, h3⟩, h4⟩ := hsetup
  simp [kytesql_exec, h1, h2, h3, h4, hprep, setupCalls]

/-! ## Outcomes of `kytesql_exec` -/

/-- C8: with the set-up and the preparation successful, if the first `k ≥ 1`
steps each give a row that is marshalled, the callback returns `0` on its
first `k - 1` invocations and non-zero on its `k`-th, then `kytesql_exec`
returns as soon as the fuel pays for `k` steps, whatever the statement would
give afterwards: it has made exactly `k` steps and `k` callback invocations
(the rows `0, ..., k - 1` in order) and returns `SQLITE_OK`. -/
theorem callback_stop_ends_exec {σ : Type} (h : Host) (db : Option KDB) (sql : String)
    (cb : σ → Row → σ × Int) (arg : σ) (k fuel : Nat)
    (hsetup : setupOk h = true) (hprep : h.prepareRc = SQLITE_OK) (hk : 1 ≤ k)
    (hrows : ∀ i, i < k → rowReady h i = true)
    (hgo : ∀ i, i + 1 < k → cbReturn h cb arg i = 0)
    (hstop : cbReturn h cb arg (k - 1) ≠ 0)
    (hfuel : k ≤ fuel) :
    ∃ r, kytesql_exec h fuel db sql cb arg = some r ∧
      r.rc = SQLITE_OK ∧
      stepCount r.trace = k ∧
      callbackRows r.trace = (List.range k).map (rowAt h) ∧
      r.arg = argBefore h cb arg k ∧
      r.trace = setupCalls sql ++ deliveries h 0 k ++
        cleanupCalls h.prepareStmt h.openHandle := by
  obtain ⟨n, rfl⟩ : ∃ n, k = n + 1 := ⟨k - 1, by omega⟩
  obtain ⟨f, rfl⟩ : ∃ f, fuel = (f + 1) + n := ⟨fuel - (n + 1), by omega⟩
  have hlast := stepLoop_stop h cb f n (argBefore h cb arg n) (hrows n (by omega)) hstop
  have hloop := stepLoop_deliver h cb arg n 0 (f + 1) _ _ _
    (fun j _ hj => ⟨hrows j (by omega), hgo j (by omega)⟩)
    (by rw [Nat.zero_add]; exact hlast)
  have hd : deliveries h 0 (n + 1) =
      deliveries h 0 n ++ [Event.step, Event.callback (rowAt h n)] := by
    simpa using deliveries_concat h 0 n
  rw [← hd] at hloop
  have hloop' : stepLoop h cb (f + 1 + n) 0 arg = _ := hloop
  refine ⟨_, by rw [kytesql_exec_loop h _ db sql cb arg hsetup hprep, hloop'], ?_, ?_, ?_, rfl, ?_⟩
  · simp [finish]
  · simp [finish, stepCount_append, stepCount_setupCalls, stepCount_cleanupCalls,
      stepCount_deliveries]
  · simp [finish, callbackRows_append, callbackRows_setupCalls, callbackRows_cleanupCalls,
      callbackRows_deliveries, List.range_eq_range']
  · simp [finish, List.append_assoc]

/-- C8 on a statement that gives rows for ever: the callback `stopAt 1` stops
at the first row, `stopAt 3` at the third. -/
theorem callback_stop_ends_exec_witness :
    (∃ r, kytesql_exec endlessHost 1 none "SELECT key, value FROM kv" (stopAt 1) 0 = some r ∧
      r.rc = SQLITE_OK ∧ stepCount r.trace = 1 ∧
      callbackRows r.trace = (List.range 1).map (rowAt endlessHost) ∧
      r.arg = argBefore endlessHost (stopAt 1) 0 1 ∧
      r.trace = setupCalls "SELECT key, value FROM kv" ++ deliveries endlessHost 0 1 ++
        cleanupCalls endlessHost.prepareStmt endlessHost.openHandle) ∧
    (∃ r, kytesql_exec endlessHost 3 none "SELECT key, value FROM kv" (stopAt 3) 0 = some r ∧
      r.rc = SQLITE_OK ∧ stepCount r.trace = 3 ∧
      callbackRows r.trace = (List.range 3).map (rowAt endlessHost) ∧
      r.arg = argBefore endlessHost (stopAt 3) 0 3 ∧
      r.trace = setupCalls "SELECT key, value FROM kv" ++ deliveries endlessHost 0 3 ++
        cleanupCalls endlessHost.prepareStmt endlessHost.openHandle) :=
  ⟨callback_stop_ends_exec endlessHost none "SELECT key, value FROM kv" (stopAt 1) 0 1 1
      (by decide) (by decide) (by decide) (fun _ _ => rfl)
      (fun i hi => absurd hi (by omega)) (by decide) (by decide),
   callback_stop_ends_exec endlessHost none "SELECT key, value FROM kv" (stopAt 3) 0 3 3
      (by decide) (by decide) (by decide) (fun _ _ => rfl)
      (fun i hi => by
        have : i = 0 ∨ i = 1 := by omega
        rcases this with rfl | rfl <;> decide)
      (by decide) (by decide)⟩

/-- C9: with every call before it successful, if `sqlite3_prepare_v2` returns
an error code (not `SQLITE_OK`, and not one of the two codes `SQLITE_ROW` and
`SQLITE_DONE` that only `sqlite3_step` returns), `kytesql_exec` returns that
code, for any fuel; it makes no step and no callback invocation, and the
callback state is untouched. -/
theorem prepare_failure_surfaces {σ : Type} (h : Host) (db : Option KDB) (sql : String)
    (cb : σ → Row → σ × Int) (arg : σ) (fuel : Nat)
    (hsetup : setupOk h = true) (hfail : h.prepareRc ≠ SQLITE_OK)
    (hrow : h.prepareRc ≠ SQLITE_ROW) (hdone : h.prepareRc ≠ SQLITE_DONE) :
    ∃ r, kytesql_exec h fuel db sql cb arg = some r ∧
      r.rc = h.prepareRc ∧ r.rc ≠ SQLITE_OK ∧
      stepCount r.trace = 0 ∧
      callbackRows r.trace = [] ∧
      r.arg = arg ∧
      r.trace = setupCalls sql ++ cleanupCalls h.prepareStmt h.openHandle := by
  simp only [setupOk, Bool.and_eq_true, decide_eq_true_eq] at hsetup
  obtain ⟨⟨⟨h1, h2⟩, h3⟩, h4⟩ := hsetup
  refine ⟨finish db h.prepareRc arg (setupCalls sql) h.prepareStmt h.openHandle,
    by simp [kytesql_exec, h1, h2, h3, h4, hfail, setupCalls], ?_, ?_, ?_, ?_, rfl, rfl⟩
  · simp [finish, hrow, hdone]
  · simp [finish, hrow, hdone, hfail]
  · simp [finish, stepCount_append, stepCount_setupCalls, stepCount_cleanupCalls]
  · simp [finish, callbackRows_append, callbackRows_setupCalls, callbackRows_cleanupCalls]

/-- C9 on a host engine that rejects the SQL text with `SQLITE_ERROR` (1),
with no fuel at all. -/
theorem prepare_failure_surfaces_witness :
    ∃ r, kytesql_exec rejectingHost 0 (some demoStore) "SELEKT" countRows 0 = some r ∧
      r.rc = rejectingHost.prepareRc ∧ r.rc ≠ SQLITE_OK ∧
      stepCount r.trace = 0 ∧
      callbackRows r.trace = [] ∧
      r.arg = 0 ∧
      r.trace = setupCalls "SELEKT" ++
        cleanupCalls rejectingHost.prepareStmt rejectingHost.openHandle :=
  prepare_failure_surfaces rejectingHost (some demoStore) "SELEKT" countRows 0 0
    (by decide) (by decide) (by decide) (by decide)

/-- C10: with the set-up and the preparation successful, if the first `m ≥ 0`
steps each give a row that is marshalled and delivered with the callback
returning `0`, and the next step returns a code other than `SQLITE_ROW`, then
`kytesql_exec` returns as soon as the fuel pays for `m + 1` steps; the
callback has been invoked exactly `m` times, on the rows `0, ..., m - 1` in
order; the status is `SQLITE_OK` when that code is `SQLITE_DONE`, and it is
that code when it is an error code. -/
theorem exec_completes_or_fails {σ : Type} (h : Host) (db : Option KDB) (sql : String)
    (cb : σ → Row → σ × Int) (arg : σ) (m fuel : Nat)
    (hsetup : setupOk h = true) (hprep : h.prepareRc = SQLITE_OK)
    (hrows : ∀ i, i < m → rowReady h i = true)
    (hgo : ∀ i, i < m → cbReturn h cb arg i = 0)
    (hend : (h.step m).rc ≠ SQLITE_ROW)
    (hfuel : m < fuel) :
    ∃ r, kytesql_exec h fuel db sql cb arg = some r ∧
      ((h.step m).rc = SQLITE_DONE → r.rc = SQLITE_OK) ∧
      ((h.step m).rc ≠ SQLITE_DONE → r.rc = (h.step m).rc) ∧
      callbackRows r.trace = (List.range m).map (rowAt h) ∧
      stepCount r.trace = m + 1 ∧
      r.arg = argBefore h cb arg m ∧
      r.trace = setupCalls sql ++ deliveries h 0 m ++ [Event.step] ++
        cleanupCalls h.prepareStmt h.openHandle := by
  obtain ⟨f, rfl⟩ : ∃ f, fuel = (f + 1) + m := ⟨fuel - (m + 1), by omega⟩
  have hlast := stepLoop_end h cb f m (argBefore h cb arg m) hend
  have hloop := stepLoop_deliver h cb arg m 0 (f + 1) _ _ _
    (fun j _ hj => ⟨hrows j (by omega), hgo j (by omega)⟩)
    (by rw [Nat.zero_add]; exact hlast)
  have hloop' : stepLoop h cb (f + 1 + m) 0 arg = _ := hloop
  refine ⟨_, by rw [kytesql_exec_loop h _ db sql cb arg hsetup hprep, hloop'],
    ?_, ?_, ?_, ?_, rfl, ?_⟩
  · intro hd
    simp [finish, hd]
  · intro hd
    simp [finish, hd, hend]
  · simp [finish, callbackRows_append, callbackRows_setupCalls, callbackRows_cleanupCalls,
      callbackRows_deliveries, List.range_eq_range', callbackRows]
  · have hone : stepCount [Event.step] = 1 := rfl
    simp only [finish, stepCount_append, stepCount_setupCalls, stepCount_cleanupCalls,
      stepCount_deliveries, hone]
    omega
  · simp [finish, List.append_assoc]

/-- C10 on a statement of one row: ended by `SQLITE_DONE` the status is
`SQLITE_OK`; ended by `SQLITE_IOERR` (10) the status is 10; the row has been
delivered in both runs. -/
theorem exec_completes_or_fails_witness :
    (∃ r, kytesql_exec demoHost 2 none "SELECT key, value FROM kv" countRows 0 = some r ∧
      r.rc = SQLITE_OK ∧ callbackRows r.trace = [rowAt demoHost 0] ∧ r.arg = 1) ∧
    (∃ r, kytesql_exec failingHost 2 none "SELECT key, value FROM kv" countRows 0 = some r ∧
      r.rc = 10 ∧ callbackRows r.trace = [rowAt failingHost 0] ∧ r.arg = 1) := by
  obtain ⟨r, hr, hok, -, hrows, -, harg, -⟩ :=
    exec_completes_or_fails demoHost none "SELECT key, value FROM kv" countRows 0 1 2
      (by decide) (by decide)
      (fun i hi => by
        have : i = 0 := by omega
        subst this; decide)
      (fun i hi => by
        have : i = 0 := by omega
        subst this; decide)
      (by decide) (by decide)
  obtain ⟨r', hr', -, herr, hrows', -, harg', -⟩ :=
    exec_completes_or_fails failingHost none "SELECT key, value FROM kv" countRows 0 1 2
      (by decide) (by decide)
      (fun i hi => by
        have : i = 0 := by omega
        subst this; decide)
      (fun i hi => by
        have : i = 0 := by omega
        subst this; decide)
      (by decide) (by decide)
  exact ⟨⟨r, hr, hok (by decide), hrows, harg⟩, ⟨r', hr', herr (by decide), hrows', harg'⟩⟩

/-! ## The calls after `end` -/

/-- The loop makes only step and callback calls. -/
theorem stepLoop_trace_events {σ : Type} (h : Host) (cb : σ → Row → σ × Int) :
    ∀ (fuel i : Nat) (s : σ) (rc : Int) (s' : σ) (tr : List Event),
      stepLoop h cb fuel i s = some (rc, s', tr) → ∀ e ∈ tr, isCleanup e = false
  | 0, _, _, _, _, _, hl => by simp [stepLoop] at hl
  | fuel + 1, i, s, rc, s', tr, hl => by
    rw [stepLoop] at hl
    simp only at hl
    split at hl
    · split at hl
      · simp only [Option.some.injEq, Prod.mk.injEq] at hl
        obtain ⟨-, -, rfl⟩ := hl
        simp [isCleanup]
      · split at hl
        · simp only [Option.some.injEq, Prod.mk.injEq] at hl
          obtain ⟨-, -, rfl⟩ := hl
          simp [isCleanup]
        · cases hrec : stepLoop h cb fuel (i + 1) (cb s (marshal (h.step i) (h.alloc i))).1 with
          | none => simp [hrec] at hl
          | some res =>
            obtain ⟨rc₁, s₁, tr₁⟩ := res
            simp only [hrec, Option.some.injEq, Prod.mk.injEq] at hl
            obtain ⟨-, -, rfl⟩ := hl
            have ih := stepLoop_trace_events h cb fuel (i + 1) _ rc₁ s₁ tr₁ hrec
            intro e he
            simp only [List.mem_cons] at he
            rcases he with rfl | rfl | he
            · rfl
            · rfl
            · exact ih e he
    · simp only [Option.some.injEq, Prod.mk.injEq] at hl
      obtain ⟨-, -, rfl⟩ := hl
      simp [isCleanup]

/-- C11, as the claim states it, fails: when `sqlite3_initialize` fails,
`kytesql_exec` returns the code at once; `sqlite3_shutdown` is not called. -/
theorem init_failure_skips_shutdown_counterexample :
    ∃ r, kytesql_exec initFailHost 5 (some demoStore) "SELECT key, value FROM kv" countRows 0
        = some r ∧
      r.rc = 7 ∧ r.trace = [Event.init] ∧ Event.shutdown ∉ r.trace :=
  ⟨_, rfl, by decide, rfl, by decide⟩

/-- C11 (amended): once `sqlite3_initialize` has succeeded, every return of
`kytesql_exec` is preceded by the calls after `end`: the trace is the calls
made so far followed by `sqlite3_finalize` exactly when the statement was
prepared (the preparation was reached and left a statement),
`sqlite3_close` exactly when `sqlite3_open` left a handle, and
`sqlite3_shutdown` as the last call; the call returns on every path that
ends before the loop, and whenever the loop ends within the fuel. When
`sqlite3_initialize` fails, the call returns its code after that one call. -/
theorem cleanup_runs_after_init {σ : Type} (h : Host) (fuel : Nat) (db : Option KDB)
    (sql : String) (cb : σ → Row → σ × Int) (arg : σ) :
    (h.initRc ≠ SQLITE_OK →
      ∃ r, kytesql_exec h fuel db sql cb arg = some r ∧ r.rc = h.initRc ∧
        r.trace = [Event.init]) ∧
    (h.initRc = SQLITE_OK →
      ((setupOk h = false ∨ h.prepareRc ≠ SQLITE_OK ∨
          (stepLoop h cb fuel 0 arg).isSome = true) →
        (kytesql_exec h fuel db sql cb arg).isSome = true) ∧
      ∀ r, kytesql_exec h fuel db sql cb arg = some r →
        ∃ pre, r.trace = pre ++
            cleanupCalls (decide (Event.prepare sql ∈ pre) && h.prepareStmt) h.openHandle ∧
          ∀ e ∈ pre, isCleanup e = false) := by
  refine ⟨fun hfail =>
    ⟨{ rc := h.initRc, arg := arg, trace := [Event.init], gdb := db },
      by simp [kytesql_exec, hfail], rfl, rfl⟩, fun hinit => ?_⟩
  by_cases h2 : h.openRc = SQLITE_OK
  swap
  · refine ⟨fun _ => by simp [kytesql_exec, hinit, h2], fun r hr => ?_⟩
    simp only [kytesql_exec, hinit, h2, ne_eq, not_true_eq_false, not_false_eq_true, if_true,
      if_false, Option.some.injEq] at hr
    subst hr
    exact ⟨[Event.init, Event.openDb], by simp [finish], by simp [isCleanup]⟩
  by_cases h3 : h.moduleRc = SQLITE_OK
  swap
  · refine ⟨fun _ => by simp [kytesql_exec, hinit, h2, h3], fun r hr => ?_⟩
    simp only [kytesql_exec, hinit, h2, h3, ne_eq, not_true_eq_false, not_false_eq_true,
      if_true, if_false, Option.some.injEq] at hr
    subst hr
    exact ⟨[Event.init, Event.openDb, Event.createModule MODULE_NAME], by simp [finish],
      by simp [isCleanup]⟩
  by_cases h4 : h.createRc = SQLITE_OK
  swap
  · refine ⟨fun _ => by simp [kytesql_exec, hinit, h2, h3, h4], fun r hr => ?_⟩
    simp only [kytesql_exec, hinit, h2, h3, h4, ne_eq, not_true_eq_false, not_false_eq_true,
      if_true, if_false, Option.some.injEq] at hr
    subst hr
    exact ⟨[Event.init, Event.openDb, Event.createModule MODULE_NAME, Event.execSql createSql],
      by simp [finish], by simp [isCleanup]⟩
  by_cases h5 : h.prepareRc = SQLITE_OK
  swap
  · refine ⟨fun _ => by simp [kytesql_exec, hinit, h2, h3, h4, h5], fun r hr => ?_⟩
    simp only [kytesql_exec, hinit, h2, h3, h4, h5, ne_eq, not_true_eq_false,
      not_false_eq_true, if_true, if_false, Option.some.injEq] at hr
    subst hr
    exact ⟨setupCalls sql, by simp [finish, setupCalls], by simp [isCleanup, setupCalls]⟩
  have hs : setupOk h = true := by simp [setupOk, hinit, h2, h3, h4]
  have hexec := kytesql_exec_loop h fuel db sql cb arg hs h5
  cases hloop : stepLoop h cb fuel 0 arg with
  | none =>
    rw [hloop] at hexec
    refine ⟨fun hh => ?_, fun r hr => ?_⟩
    · rcases hh with hh | hh | hh
      · rw [hs] at hh; cases hh
      · exact absurd h5 hh
      · simp at hh
    · rw [hexec] at hr; cases hr
  | some res =>
    obtain ⟨rc, s, tr⟩ := res
    rw [hloop] at hexec
    simp only at hexec
    refine ⟨fun _ => by rw [hexec]; rfl, fun r hr => ?_⟩
    rw [hexec] at hr
    simp only [Option.some.injEq] at hr
    subst hr
    refine ⟨setupCalls sql ++ tr, by simp [finish, setupCalls], ?_⟩
    intro e he
    rcases List.mem_append.mp he with he | he
    · have hsetup : ∀ e' ∈ setupCalls sql, isCleanup e' = false := by
        simp [isCleanup, setupCalls]
      exact hsetup e he
    · exact stepLoop_trace_events h cb fuel 0 arg rc s tr hloop e he

/-- C11 (amended) on `demoHost`, whose statement gives one row and is done. -/
theorem cleanup_runs_after_init_witness :
    demoHost.initRc = SQLITE_OK ∧
    (((setupOk demoHost = false ∨ demoHost.prepareRc ≠ SQLITE_OK ∨
        (stepLoop demoHost countRows 2 0 0).isSome = true) →
        (kytesql_exec demoHost 2 none "SELECT key, value FROM kv" countRows 0).isSome = true) ∧
      ∀ r, kytesql_exec demoHost 2 none "SELECT key, value FROM kv" countRows 0 = some r →
        ∃ pre, r.trace = pre ++
            cleanupCalls (decide (Event.prepare "SELECT key, value FROM kv" ∈ pre) &&
              demoHost.prepareStmt) demoHost.openHandle ∧
          ∀ e ∈ pre, isCleanup e = false) :=
  ⟨by decide,
   (cleanup_runs_after_init demoHost 2 none "SELECT key, value FROM kv" countRows 0).2
     (by decide)⟩

/-! ## Allocation failures while a row is marshalled -/

/-- The iteration at which one of the two row arrays is not allocated. -/
theorem stepLoop_nomem {σ : Type} (h : Host) (cb : σ → Row → σ × Int)
    (fuel i : Nat) (s : σ) (hrc : (h.step i).rc = SQLITE_ROW)
    (hfail : (h.alloc i).valuesOk = false ∨ (h.alloc i).namesOk = false) :
    stepLoop h cb (fuel + 1) i s = some (SQLITE_NOMEM, s, [Event.step]) := by
  rw [stepLoop]
  rcases hfail with hf | hf <;> simp [hrc, hf]

/-- The part of C12 that the code implements: after `m` delivered rows, a
step that gives a row for which `malloc` of the values array or of the names
array fails ends the loop; `kytesql_exec` returns `SQLITE_NOMEM` and the
callback is not invoked for that row. -/
theorem array_alloc_failure_stops_exec {σ : Type} (h : Host) (db : Option KDB)
    (sql : String) (cb : σ → Row → σ × Int) (arg : σ) (m fuel : Nat)
    (hsetup : setupOk h = true) (hprep : h.prepareRc = SQLITE_OK)
    (hrows : ∀ i, i < m → rowReady h i = true)
    (hgo : ∀ i, i < m → cbReturn h cb arg i = 0)
    (hrc : (h.step m).rc = SQLITE_ROW)
    (hfail : (h.alloc m).valuesOk = false ∨ (h.alloc m).namesOk = false)
    (hfuel : m < fuel) :
    ∃ r, kytesql_exec h fuel db sql cb arg = some r ∧
      r.rc = SQLITE_NOMEM ∧
      callbackRows r.trace = (List.range m).map (rowAt h) ∧
      stepCount r.trace = m + 1 ∧
      r.arg = argBefore h cb arg m := by
  obtain ⟨f, rfl⟩ : ∃ f, fuel = (f + 1) + m := ⟨fuel - (m + 1), by omega⟩
  have hlast := stepLoop_nomem h cb f m (argBefore h cb arg m) hrc hfail
  have hloop := stepLoop_deliver h cb arg m 0 (f + 1) _ _ _
    (fun j _ hj => ⟨hrows j (by omega), hgo j (by omega)⟩)
    (by rw [Nat.zero_add]; exact hlast)
  have hloop' : stepLoop h cb (f + 1 + m) 0 arg = _ := hloop
  refine ⟨_, by rw [kytesql_exec_loop h _ db sql cb arg hsetup hprep, hloop'], ?_, ?_, ?_, rfl⟩
  · simp [finish, SQLITE_NOMEM, SQLITE_DONE, SQLITE_ROW]
  · simp [finish, callbackRows_append, callbackRows_setupCalls, callbackRows_cleanupCalls,
      callbackRows_deliveries, List.range_eq_range', callbackRows]
  · have hone : stepCount [Event.step] = 1 := rfl
    simp only [finish, stepCount_append, stepCount_setupCalls, stepCount_cleanupCalls,
      stepCount_deliveries, hone]
    omega

/-- The array part of C12 on `arrayFailHost`: the names array of the first
row is not allocated. -/
theorem array_alloc_failure_stops_exec_witness :
    ∃ r, kytesql_exec arrayFailHost 1 none "SELECT key, value FROM kv" countRows 0 = some r ∧
      r.rc = SQLITE_NOMEM ∧
      callbackRows r.trace = (List.range 0).map (rowAt arrayFailHost) ∧
      stepCount r.trace = 0 + 1 ∧
      r.arg = argBefore arrayFailHost countRows 0 0 :=
  array_alloc_failure_stops_exec arrayFailHost none "SELECT key, value FROM kv" countRows 0 0 1
    (by decide) (by decide) (fun i hi => absurd hi (by omega))
    (fun i hi => absurd hi (by omega)) (by decide) (Or.inr (by decide)) (by decide)

/-- C12 fails on the code for the copies made by `strdup`, whose result is
never tested. On `dupFailHost` the copy of the value of column 0 of the first
row fails: the callback is still invoked for that row, with NULL in place of
the value `"age"`, stepping goes on to the end of the statement, and
`kytesql_exec` returns `SQLITE_OK`, not `SQLITE_NOMEM`. On `dupNameFailHost`
the copy of the name of column 1 fails and the callback receives a NULL
column name, again with `SQLITE_OK` returned. -/
theorem strdup_failure_is_not_reported :
    (∃ r, kytesql_exec dupFailHost 2 none "SELECT key, value FROM kv" countRows 0 = some r ∧
      r.rc = SQLITE_OK ∧ r.rc ≠ SQLITE_NOMEM ∧
      callbackRows r.trace =
        [{ cols := 2, values := [none, some "31"], names := [some "key", some "value"] }] ∧
      stepCount r.trace = 2 ∧ r.arg = 1) ∧
    (∃ r, kytesql_exec dupNameFailHost 2 none "SELECT key, value FROM kv" countRows 0 = some r ∧
      r.rc = SQLITE_OK ∧ r.rc ≠ SQLITE_NOMEM ∧
      callbackRows r.trace =
        [{ cols := 2, values := [some "age", some "31"], names := [some "key", none] }] ∧
      stepCount r.trace = 2 ∧ r.arg = 1) :=
  ⟨⟨_, rfl, by decide, by decide, by decide, by decide, by decide⟩,
   ⟨_, rfl, by decide, by decide, by decide, by decide, by decide⟩⟩

/-! ## Scans depend on the store alone -/

/-- C13: a scan is a function of the binding alone. Two scans under the same
binding `g`, positioned by `kyteFilter` from any two cursors and with any
filter arguments, give the same rows (row identity, key, value), both as
complete scans within any fuel and as the first `n` rows of scans that may
never end; the cursor made by `kyteOpen` is where `kyteFilter` puts it; the
scan run during `kytesql_exec` does not depend on the binding left by an
earlier call; and for any host engine whose row stream is a function of the
SQL text and of the rows scanned, two calls of `kytesql_exec` with the same
store and SQL text give the same result, the delivered rows included. -/
theorem scan_is_function_of_store {V W σ : Type} (g : Option KDB) (cur₁ cur₂ : KyteCursor)
    (prev₁ prev₂ : Option KDB) (fuel n : Nat)
    (idxNum₁ idxNum₂ : Int) (idxStr₁ idxStr₂ : Option String) (argc₁ argc₂ : Int)
    (argv₁ : List V) (argv₂ : List W)
    (h : Host) (engine : String → Option (List ScanRow) → Nat → StepOut)
    (sql : String) (cb : σ → Row → σ × Int) (arg : σ) (fuelE : Nat) :
    scanRowsFrom g fuel (kyteFilter g cur₁ idxNum₁ idxStr₁ argc₁ argv₁).2 =
        scanRowsFrom g fuel (kyteFilter g cur₂ idxNum₂ idxStr₂ argc₂ argv₂).2 ∧
      scanRowsTake g n (kyteFilter g cur₁ idxNum₁ idxStr₁ argc₁ argv₁).2 =
        scanRowsTake g n (kyteFilter g cur₂ idxNum₂ idxStr₂ argc₂ argv₂).2 ∧
      scanFrom g fuel (kyteFilter g cur₁ idxNum₁ idxStr₁ argc₁ argv₁).2 =
        scanFrom g fuel (kyteFilter g cur₂ idxNum₂ idxStr₂ argc₂ argv₂).2 ∧
      (kyteOpen g true).2 = some (kyteFilter g cur₁ idxNum₁ idxStr₁ argc₁ argv₁).2 ∧
      execScan prev₁ g fuel idxNum₁ idxStr₁ argc₁ argv₁ =
        execScan prev₂ g fuel idxNum₂ idxStr₂ argc₂ argv₂ ∧
      kytesql_exec
          { h with step := engine sql (execScan prev₁ g fuel idxNum₁ idxStr₁ argc₁ argv₁) }
          fuelE g sql cb arg =
        kytesql_exec
          { h with step := engine sql (execScan prev₂ g fuel idxNum₂ idxStr₂ argc₂ argv₂) }
          fuelE g sql cb arg := by
  have hf : (kyteFilter g cur₁ idxNum₁ idxStr₁ argc₁ argv₁).2 =
      (kyteFilter g cur₂ idxNum₂ idxStr₂ argc₂ argv₂).2 := by
    cases g <;> rfl
  have ho : (kyteOpen g true).2 = some (kyteFilter g cur₁ idxNum₁ idxStr₁ argc₁ argv₁).2 := by
    cases g <;> rfl
  have hs : execScan prev₁ g fuel idxNum₁ idxStr₁ argc₁ argv₁ =
      execScan prev₂ g fuel idxNum₂ idxStr₂ argc₂ argv₂ := by
    cases g <;> rfl
  exact ⟨by rw [hf], by rw [hf], by rw [hf], ho, hs, by rw [hs]⟩

/-! ## Chains with a cycle -/

theorem chainAt_periodic (db : KDB) (i p : Nat) (hcyc : chainAt db (i + p) = chainAt db i) :
    ∀ m, chainAt db (i + p + m) = chainAt db (i + m)
  | 0 => hcyc
  | m + 1 => by
    have ih := chainAt_periodic db i p hcyc m
    show (entryAt db (chainAt db (i + p + m))).next = (entryAt db (chainAt db (i + m))).next
    rw [ih]

/-- On a chain that runs into a cycle of record starts, every offset of the
chain is a record start. -/
theorem chainAt_inRange (db : KDB) (i p : Nat) (hp : 0 < p)
    (hin : ∀ j, j < i + p → inRange db (chainAt db j) = true)
    (hcyc : chainAt db (i + p) = chainAt db i) :
    ∀ k, inRange db (chainAt db k) = true := by
  intro k
  induction k using Nat.strong_induction_on with
  | _ k ih =>
    by_cases hk : k < i + p
    · exact hin k hk
    · obtain ⟨m, rfl⟩ : ∃ m, k = i + p + m := ⟨k - (i + p), by omega⟩
      rw [chainAt_periodic db i p hcyc m]
      exact ih (i + m) (by omega)

theorem inRange_iff (db : KDB) (o : Nat) :
    inRange db o = true ↔ 0 < o ∧ o < db.mapsize := by
  simp [inRange]

theorem kyteEof_of_inRange (db : KDB) (o : Nat) (h : inRange db o = true) :
    kyteEof (some db) ⟨o⟩ = 0 := by
  obtain ⟨h0, h1⟩ := (inRange_iff db o).mp h
  have hn : ¬ (o = 0 ∨ o ≥ db.mapsize) := by omega
  simp [kyteEof, hn]

theorem kyteNext_of_inRange (db : KDB) (o : Nat) (h : inRange db o = true) :
    (kyteNext (some db) ⟨o⟩).2 = ⟨(entryAt db o).next⟩ := by
  obtain ⟨h0, h1⟩ := (inRange_iff db o).mp h
  have hn : o ≠ 0 := by omega
  simp [kyteNext, hn, h1]

/-- While the chain stays on record starts, `k` advances from the root lead
to the `k`-th offset of the chain. -/
theorem advanceN_root (db : KDB) (hall : ∀ k, inRange db (chainAt db k) = true) :
    ∀ k, advanceN (some db) k ⟨db.root⟩ = ⟨chainAt db k⟩
  | 0 => rfl
  | k + 1 => by
    show (kyteNext (some db) (advanceN (some db) k ⟨db.root⟩)).2 = _
    rw [advanceN_root db hall k, kyteNext_of_inRange db _ (hall k)]
    rfl

theorem scanFrom_never_ends (db : KDB) (hall : ∀ k, inRange db (chainAt db k) = true) :
    ∀ fuel k, scanFrom (some db) fuel ⟨chainAt db k⟩ = none
  | 0, _ => rfl
  | fuel + 1, k => by
    have ih := scanFrom_never_ends db hall fuel (k + 1)
    have hnext : (kyteNext (some db) ⟨chainAt db k⟩).2 = ⟨chainAt db (k + 1)⟩ :=
      kyteNext_of_inRange db _ (hall k)
    rw [scanFrom, kyteEof_of_inRange db _ (hall k), hnext, ih]
    simp

/-- C16: when the chain from the root runs into a cycle of record starts
(its first `i + p` offsets are all inside `0 < o < mapsize`, and the offset
after them is the `i`-th again, `p ≥ 1`), then after `kyteFilter` and any
number `k` of `kyteNext` calls `kyteEof` is still false, and the scan loop
returns for no amount of fuel. -/
theorem cyclic_chain_scan_never_ends {V : Type} (db : KDB) (i p : Nat) (cur : KyteCursor)
    (idxNum : Int) (idxStr : Option String) (argc : Int) (argv : List V)
    (hp : 0 < p)
    (hin : ∀ j, j < i + p → inRange db (chainAt db j) = true)
    (hcyc : chainAt db (i + p) = chainAt db i) :
    (∀ k, kyteEof (some db)
        (advanceN (some db) k (kyteFilter (some db) cur idxNum idxStr argc argv).2) = 0) ∧
      ∀ fuel, scanFrom (some db) fuel (kyteFilter (some db) cur idxNum idxStr argc argv).2
        = none := by
  have hall := chainAt_inRange db i p hp hin hcyc
  have hf : (kyteFilter (some db) cur idxNum idxStr argc argv).2 = ⟨db.root⟩ := rfl
  rw [hf]
  refine ⟨fun k => ?_, fun fuel => scanFrom_never_ends db hall fuel 0⟩
  rw [advanceN_root db hall k]
  exact kyteEof_of_inRange db _ (hall k)

/-- C16 on `selfLoopStore`, whose root record is its own successor, and on
`twoCycleStore`, a cycle of two records. -/
theorem cyclic_chain_scan_never_ends_witness :
    ((∀ k, kyteEof (some selfLoopStore) (advanceN (some selfLoopStore) k
        (kyteFilter (some selfLoopStore) ⟨0⟩ 0 none 0 ([] : List Unit)).2) = 0) ∧
      ∀ fuel, scanFrom (some selfLoopStore) fuel
        (kyteFilter (some selfLoopStore) ⟨0⟩ 0 none 0 ([] : List Unit)).2 = none) ∧
    ((∀ k, kyteEof (some twoCycleStore) (advanceN (some twoCycleStore) k
        (kyteFilter (some twoCycleStore) ⟨0⟩ 0 none 0 ([] : List Unit)).2) = 0) ∧
      ∀ fuel, scanFrom (some twoCycleStore) fuel
        (kyteFilter (some twoCycleStore) ⟨0⟩ 0 none 0 ([] : List Unit)).2 = none) :=
  ⟨cyclic_chain_scan_never_ends selfLoopStore 0 1 ⟨0⟩ 0 none 0 ([] : List Unit) (by decide)
      (fun j hj => by
        have : j = 0 := by omega
        subst this; decide)
      (by decide),
   cyclic_chain_scan_never_ends twoCycleStore 0 2 ⟨0⟩ 0 none 0 ([] : List Unit) (by decide)
      (fun j hj => by
        have : j = 0 ∨ j = 1 := by omega
        rcases this with rfl | rfl <;> decide)
      (by decide)⟩

/-! ## The end state -/

theorem kyteEof_zero_or_one (g : Option KDB) (cur : KyteCursor) :
    kyteEof g cur = 0 ∨ kyteEof g cur = 1 := by
  cases g with
  | none => exact Or.inr rfl
  | some db =>
    by_cases hc : cur.off = 0 ∨ cur.off ≥ db.mapsize
    · exact Or.inr (by simp [kyteEof, hc])
    · exact Or.inl (by simp [kyteEof, hc])

theorem kyteNext_at_end (g : Option KDB) (cur : KyteCursor) (h : kyteEof g cur ≠ 0) :
    (kyteNext g cur).2 = ⟨0⟩ := by
  cases g with
  | none => rfl
  | some db =>
    by_cases hc : cur.off = 0 ∨ cur.off ≥ db.mapsize
    · have hn : ¬ (cur.off ≠ 0 ∧ cur.off < db.mapsize) := by omega
      simp [kyteNext, hn]
    · exact absurd (by simp [kyteEof, hc]) h

theorem kyteEof_at_zero (g : Option KDB) : kyteEof g ⟨0⟩ = 1 := by
  cases g <;> simp [kyteEof]

theorem advanceN_at_end (g : Option KDB) (cur : KyteCursor) (h : kyteEof g cur ≠ 0) :
    ∀ k, advanceN g (k + 1) cur = ⟨0⟩
  | 0 => kyteNext_at_end g cur h
  | k + 1 => by
    show (kyteNext g (advanceN g (k + 1) cur)).2 = _
    rw [advanceN_at_end g cur h k]
    exact kyteNext_at_end g ⟨0⟩ (by rw [kyteEof_at_zero]; decide)

/-- C18: if `kyteEof` is true for a cursor, with a store bound or not, then
after any number `k ≥ 1` of `kyteNext` calls the offset is `0` and `kyteEof`
is still true; `kyteRowid` leaves the cursor where it is; and `kyteFilter`
leaves the end state whenever the root of the bound store is a record
start. -/
theorem exhaustion_is_absorbing {V : Type} (g : Option KDB) (cur : KyteCursor) (k : Nat)
    (idxNum : Int) (idxStr : Option String) (argc : Int) (argv : List V)
    (heof : kyteEof g cur ≠ 0) (hk : 1 ≤ k) :
    (advanceN g k cur).off = 0 ∧
      kyteEof g (advanceN g k cur) = 1 ∧
      (kyteRowid (advanceN g k cur)).2.2 = advanceN g k cur ∧
      ∀ db, g = some db → inRange db db.root = true →
        kyteEof g (kyteFilter g (advanceN g k cur) idxNum idxStr argc argv).2 = 0 := by
  obtain ⟨n, rfl⟩ : ∃ n, k = n + 1 := ⟨k - 1, by omega⟩
  rw [advanceN_at_end g cur heof n]
  refine ⟨rfl, kyteEof_at_zero g, rfl, fun db hg hroot => ?_⟩
  subst hg
  exact kyteEof_of_inRange db _ hroot

/-- C18 on `demoStore`: from the offset 64 past the mapped region, and from
offset 16 with no store bound, three advances leave the cursor at end; a
restart on `demoStore` leaves the end state. -/
theorem exhaustion_is_absorbing_witness :
    ((advanceN (some demoStore) 3 ⟨64⟩).off = 0 ∧
      kyteEof (some demoStore) (advanceN (some demoStore) 3 ⟨64⟩) = 1 ∧
      kyteEof (some demoStore)
        (kyteFilter (some demoStore) (advanceN (some demoStore) 3 ⟨64⟩) 0 none 0
          ([] : List Unit)).2 = 0) ∧
    ((advanceN none 3 ⟨16⟩).off = 0 ∧ kyteEof none (advanceN none 3 ⟨16⟩) = 1) :=
  have h1 := exhaustion_is_absorbing (some demoStore) ⟨64⟩ 3 0 none 0 ([] : List Unit)
    (by decide) (by decide)
  have h2 := exhaustion_is_absorbing none ⟨16⟩ 3 0 none 0 ([] : List Unit)
    (by decide) (by decide)
  ⟨⟨h1.1, h1.2.1, h1.2.2.2 demoStore rfl (by decide)⟩, ⟨h2.1, h2.2.1⟩⟩

/-- C19: for every binding and every cursor, `kyteEof` is `0` or `1`; it is
false exactly when `kyteColumn` hands over a text for column 0, exactly when
it hands over a blob for column 1, and it is true exactly when `kyteColumn`
is null for every column. -/
theorem eof_agrees_with_column_guard (g : Option KDB) (cur : KyteCursor) :
    (kyteEof g cur = 0 ∨ kyteEof g cur = 1) ∧
      (kyteEof g cur = 0 ↔ ∃ z n, kyteColumn g cur 0 = (SQLITE_OK, .text z n)) ∧
      (kyteEof g cur = 0 ↔ ∃ z n, kyteColumn g cur 1 = (SQLITE_OK, .blob z n)) ∧
      (kyteEof g cur = 1 ↔ ∀ col, kyteColumn g cur col = (SQLITE_OK, .null)) := by
  refine ⟨kyteEof_zero_or_one g cur, ?_⟩
  cases g with
  | none =>
    simp [kyteEof, kyteColumn]
  | some db =>
    by_cases hc : cur.off = 0 ∨ cur.off ≥ db.mapsize
    · simp [kyteEof, kyteColumn, hc]
    · refine ⟨?_, ?_, ?_⟩
      · simp [kyteEof, kyteColumn, hc]
      · simp [kyteEof, kyteColumn, hc]
      · have h0 : kyteColumn (some db) cur 0 ≠ (SQLITE_OK, .null) := by
          simp [kyteColumn, hc]
        simp only [kyteEof, if_neg hc]
        exact ⟨fun h => absurd h (by decide), fun h => absurd (h 0) h0⟩

/-! ## The planner callback -/

/-- C14: for every index info, `kyteBestIndex` returns `SQLITE_OK` and sets
index number 0, estimated cost `1e9` and estimated rows `1000000`; every
other field, `aConstraintUsage` and `orderByConsumed` among them, is left as
it was, so with the outputs as the host engine prepares them no constraint is
marked as used and no ordering is claimed; the plan reported is the same for
any two inputs. -/
theorem best_index_is_fixed (info info' : IndexInfo) :
    (kyteBestIndex info).1 = SQLITE_OK ∧
      (kyteBestIndex info).2.idxNum = 0 ∧
      (kyteBestIndex info).2.estimatedCost = 1000000000 ∧
      (kyteBestIndex info).2.estimatedRows = 1000000 ∧
      (kyteBestIndex info).2 =
        { info with idxNum := 0, estimatedCost := 1000000000, estimatedRows := 1000000 } ∧
      (kyteBestIndex info).2.aConstraintUsage = info.aConstraintUsage ∧
      (kyteBestIndex info).2.orderByConsumed = info.orderByConsumed ∧
      ((∀ u ∈ info.aConstraintUsage, u.argvIndex = 0 ∧ u.omitTerm = false) →
        ∀ u ∈ (kyteBestIndex info).2.aConstraintUsage, u.argvIndex = 0 ∧ u.omitTerm = false) ∧
      (info.orderByConsumed = 0 → (kyteBestIndex info).2.orderByConsumed = 0) ∧
      ((kyteBestIndex info).1 = (kyteBestIndex info').1 ∧
        (kyteBestIndex info).2.idxNum = (kyteBestIndex info').2.idxNum ∧
        (kyteBestIndex info).2.estimatedCost = (kyteBestIndex info').2.estimatedCost ∧
        (kyteBestIndex info).2.estimatedRows = (kyteBestIndex info').2.estimatedRows) :=
  ⟨rfl, rfl, rfl, rfl, rfl, rfl, rfl, fun h => h, fun h => h, rfl, rfl, rfl, rfl⟩

/-- C14 on the index info of `WHERE key LIKE 'a%' ORDER BY key`. -/
theorem best_index_is_fixed_witness :
    (kyteBestIndex demoIndexInfo).2.idxNum = 0 ∧
      (∀ u ∈ (kyteBestIndex demoIndexInfo).2.aConstraintUsage,
        u.argvIndex = 0 ∧ u.omitTerm = false) ∧
      (kyteBestIndex demoIndexInfo).2.orderByConsumed = 0 :=
  have h := best_index_is_fixed demoIndexInfo demoIndexInfo
  ⟨h.2.1, h.2.2.2.2.2.2.2.1 (by decide), h.2.2.2.2.2.2.2.2.1 (by decide)⟩

/-! ## Records that extend past the mapped region -/

/-- C17: the record at offset 16 of `overrunStore` starts inside the mapped
region of 40 bytes and declares 100 key bytes and 7 value bytes, so it ends
past the region; `kyteColumn` is not null for it: column 0 is a text of 100
bytes from address 32, which runs past address 40, and column 1 is a blob of
7 bytes from address 132, which lies wholly outside. The bytes handed over
for column 0 change with the byte at address 40, outside the mapped region,
as `overrunStoreAlt` shows. -/
theorem column_reads_past_mapsize :
    ∃ (db : KDB) (o : Nat),
      0 < o ∧ o < db.mapsize ∧
      o + sizeofEntry + (entryAt db o).klen + (entryAt db o).vlen > db.mapsize ∧
      (∃ z n, kyteColumn (some db) ⟨o⟩ 0 = (SQLITE_OK, .text z (n : Nat)) ∧
        z + n > db.mapsize ∧
        resultBytes db (kyteColumn (some db) ⟨o⟩ 0).2 = some (bytesAt db z n)) ∧
      (∃ z n, kyteColumn (some db) ⟨o⟩ 1 = (SQLITE_OK, .blob z (n : Nat)) ∧
        z + n > db.mapsize ∧
        resultBytes db (kyteColumn (some db) ⟨o⟩ 1).2 = some (bytesAt db z n)) ∧
      ∃ db' : KDB, db'.root = db.root ∧ db'.mapsize = db.mapsize ∧
        (∀ a, a < db.mapsize → db'.map a = db.map a) ∧
        resultBytes db' (kyteColumn (some db') ⟨o⟩ 0).2 ≠
          resultBytes db (kyteColumn (some db) ⟨o⟩ 0).2 := by
  refine ⟨overrunStore, 16, by decide, by decide, by decide,
    ⟨32, 100, by decide, by decide, by decide⟩,
    ⟨132, 7, by decide, by decide, by decide⟩,
    overrunStoreAlt, rfl, rfl, by decide, by decide⟩

/-! ## The demonstration query -/

/-- The full scan of the demonstration store gives its three records, in
chain order. -/
theorem tableRows_kvStore :
    (tableRows kvStore 8).map (fun r => (textOf r.1, textOf r.2)) =
        [("name", "Alice"), ("age", "31"), ("city", "NYC")] ∧
      (tableRows kvStoreRev 8).map (fun r => (textOf r.1, textOf r.2)) =
        [("city", "NYC"), ("age", "31"), ("name", "Alice")] := by
  decide

end KyteSql
